import Mathlib

/-!
Shallow embedding of the undo/redo transaction log of the MathAnimation
repository (src/Animations/src/editor/UndoSystem.cpp) together with the
state-store contract it depends on, and proofs of the specified properties.

Machine integers (`uint32`) are modelled as `Nat`; under the ring-buffer
invariant established by `init` none of the arithmetic in the source can
overflow or underflow, so plain `Nat` arithmetic with explicit `% cap`
coincides with the C++ semantics.
-/

set_option autoImplicit false

namespace MathAnim

/-- Object identifier (`AnimObjId` in the source), a stable key. -/
abbrev AnimObjId := Nat

/-- Model of `glm::u8vec4`: four byte components. Commands only copy and
compare these values, so the component range plays no role. -/
structure U8Vec4 where
  x : Nat
  y : Nat
  z : Nat
  w : Nat
deriving DecidableEq, Repr

/-- Property selector used by the undo commands; the two cases that appear
in UndoSystem.cpp. -/
inductive U8Vec4PropType where
  | FillColor
  | StrokeColor
deriving DecidableEq, Repr

/-- Modelled from the spec: the observable record of an animation object, as
far as the undo core touches it — the two color properties the commands
mutate (named as in UndoSystem.cpp) plus the child-edge list that drives the
breadth-first descendant traversal (spec section 6, AnimationStateStore). -/
structure AnimObject where
  _fillColorStart : U8Vec4
  _strokeColorStart : U8Vec4
  children : List AnimObjId
deriving DecidableEq, Repr

/-- Lookup in an association list by key; returns the first binding. -/
def assocGet {β : Type} : List (AnimObjId × β) → AnimObjId → Option β
  | [], _ => none
  | (k, v) :: rest, id => if k = id then some v else assocGet rest id

/-- Update-or-append in an association list: replaces the first binding of
the key if present, appends a new binding otherwise (the semantics of
`std::unordered_map::operator[]=`, and of writing through the mutable
reference returned by the store lookup). -/
def assocSet {β : Type} : List (AnimObjId × β) → AnimObjId → β → List (AnimObjId × β)
  | [], id, v => [(id, v)]
  | (k, w) :: rest, id, v =>
      if k = id then (k, v) :: rest else (k, w) :: assocSet rest id v

/-- Modelled from the spec: the AnimationStateStore (`AnimationManagerData`
in the source, whose implementation is outside the undo subsystem).
`objects` is the id-keyed collection resolved by `getMutableObject`;
`notified` records, in order, every `updateObjectState` notification
(spec section 6: `notifyObjectChanged`). -/
structure AnimationManagerData where
  objects : List (AnimObjId × AnimObject)
  notified : List AnimObjId
deriving DecidableEq, Repr

/-- Modelled from the spec: `getMutableObject(id)` resolves an object
identifier to its current record, or indicates absence. -/
def getMutableObject (am : AnimationManagerData) (id : AnimObjId) : Option AnimObject :=
  assocGet am.objects id

/-- Writing through the mutable reference obtained from `getMutableObject`:
replaces the object record stored under `id`. -/
def setStore (am : AnimationManagerData) (id : AnimObjId) (o : AnimObject) :
    AnimationManagerData :=
  { am with objects := assocSet am.objects id o }

/-- Modelled from the spec: `updateObjectState` / `notifyObjectChanged`
informs the store that derived state for the object must be recomputed.
Only the fact and order of notifications is observable here. -/
def updateObjectState (am : AnimationManagerData) (id : AnimObjId) :
    AnimationManagerData :=
  { am with notified := am.notified ++ [id] }

/-- Child edges of an object in the current graph (empty if absent). -/
def childrenOf (am : AnimationManagerData) (id : AnimObjId) : List AnimObjId :=
  match getMutableObject am id with
  | some o => o.children
  | none => []

/-- Modelled from the spec: worker for the breadth-first descendant
traversal, with an explicit queue, a visited set that guarantees each node
is yielded at most once, and fuel for termination. -/
def bfsAux (am : AnimationManagerData) :
    Nat → List AnimObjId → List AnimObjId → List AnimObjId
  | 0, _, _ => []
  | _ + 1, [], _ => []
  | fuel + 1, q :: qs, visited =>
      if q ∈ visited then bfsAux am fuel qs visited
      else q :: bfsAux am fuel (qs ++ childrenOf am q) (q :: visited)

/-- Total number of child edges in the store; used to size the traversal
fuel. -/
def edgeCount (am : AnimationManagerData) : Nat :=
  (am.objects.map (fun p => p.2.children.length)).sum

/-- Modelled from the spec: `descendantsBreadthFirst(id)` — a finite
breadth-first enumeration of the descendants of `id` in the current graph,
excluding `id` itself (spec section 4.3). The fuel bounds the number of
dequeue steps, which never exceeds the number of enqueued ids. -/
def descendantsBreadthFirst (am : AnimationManagerData) (id : AnimObjId) :
    List AnimObjId :=
  bfsAux am (2 * edgeCount am + 2 * (childrenOf am id).length + 1)
    (childrenOf am id) [id]

/-- Write the selected property of an object (the `switch (propType)` of
ModifyU8Vec4Command and of ApplyU8Vec4ToChildrenCommand::undo). -/
def setSelectedProp (o : AnimObject) : U8Vec4PropType → U8Vec4 → AnimObject
  | .FillColor, v => { o with _fillColorStart := v }
  | .StrokeColor, v => { o with _strokeColorStart := v }

/-- Read the selected property of an object. -/
def getSelectedProp (o : AnimObject) : U8Vec4PropType → U8Vec4
  | .FillColor => o._fillColorStart
  | .StrokeColor => o._strokeColorStart

/-- Command variants of UndoSystem.cpp. `modifyU8Vec4` carries the
constructor arguments of `ModifyU8Vec4Command`; `applyU8Vec4ToChildren`
carries those of `ApplyU8Vec4ToChildrenCommand` together with its `oldProps`
snapshot map, which `execute` mutates in place. -/
inductive Command where
  | modifyU8Vec4 (objId : AnimObjId) (oldVec newVec : U8Vec4)
      (propType : U8Vec4PropType)
  | applyU8Vec4ToChildren (objId : AnimObjId) (propType : U8Vec4PropType)
      (oldProps : List (AnimObjId × U8Vec4))
deriving DecidableEq, Repr

/-- Loop body of `ApplyU8Vec4ToChildrenCommand::execute` (UndoSystem.cpp
lines 255-273): for one descendant id, snapshot its current value of the
selected property into `oldProps`, then write the target value into the
descendant. Faithful to the source, the `StrokeColor` case writes the
target's stroke color into the descendant's `_fillColorStart` field
(line 269). The inner re-lookup of the target mirrors the read through the
`obj` pointer inside the loop; its `none` branch is unreachable because the
loop only rewrites properties and never removes objects. -/
def applyChildStep (pt : U8Vec4PropType) (targetId : AnimObjId)
    (acc : AnimationManagerData × List (AnimObjId × U8Vec4))
    (childId : AnimObjId) :
    AnimationManagerData × List (AnimObjId × U8Vec4) :=
  match getMutableObject acc.1 childId with
  | none => acc
  | some childObj =>
    match getMutableObject acc.1 targetId with
    | none => acc
    | some obj =>
      match pt with
      | .FillColor =>
          (setStore acc.1 childId { childObj with _fillColorStart := obj._fillColorStart },
           assocSet acc.2 childId childObj._fillColorStart)
      | .StrokeColor =>
          (setStore acc.1 childId { childObj with _fillColorStart := obj._strokeColorStart },
           assocSet acc.2 childId childObj._strokeColorStart)

/-- Forward operation of a command (`Command::execute`). Returns the
possibly updated command (`ApplyU8Vec4ToChildrenCommand::execute` mutates
its own `oldProps` member) together with the updated store. -/
def Command.execute : Command → AnimationManagerData →
    Command × AnimationManagerData
  | .modifyU8Vec4 objId oldVec newVec pt, am =>
    match getMutableObject am objId with
    | none => (.modifyU8Vec4 objId oldVec newVec pt, am)
    | some obj =>
        (.modifyU8Vec4 objId oldVec newVec pt,
         updateObjectState (setStore am objId (setSelectedProp obj pt newVec)) objId)
  | .applyU8Vec4ToChildren objId pt oldProps, am =>
    match getMutableObject am objId with
    | none => (.applyU8Vec4ToChildren objId pt oldProps, am)
    | some _ =>
        let res := (descendantsBreadthFirst am objId).foldl
          (applyChildStep pt objId) (am, oldProps)
        (.applyU8Vec4ToChildren objId pt res.2, updateObjectState res.1 objId)

/-- Loop body of `ApplyU8Vec4ToChildrenCommand::undo` (UndoSystem.cpp lines
283-302): restore the snapshot value of the selected property for one
descendant, provided the descendant still exists and has a snapshot entry. -/
def undoChildStep (pt : U8Vec4PropType) (oldProps : List (AnimObjId × U8Vec4))
    (am : AnimationManagerData) (childId : AnimObjId) : AnimationManagerData :=
  match getMutableObject am childId with
  | none => am
  | some childObj =>
    match assocGet oldProps childId with
    | none => am
    | some v => setStore am childId (setSelectedProp childObj pt v)

/-- Reverse operation of a command (`Command::undo`). Neither variant
mutates the command itself during undo. -/
def Command.undo : Command → AnimationManagerData → AnimationManagerData
  | .modifyU8Vec4 objId oldVec _ pt, am =>
    match getMutableObject am objId with
    | none => am
    | some obj =>
        updateObjectState (setStore am objId (setSelectedProp obj pt oldVec)) objId
  | .applyU8Vec4ToChildren objId pt oldProps, am =>
    match getMutableObject am objId with
    | none => am
    | some _ =>
        updateObjectState
          ((descendantsBreadthFirst am objId).foldl (undoChildStep pt oldProps) am)
          objId

/-- The undo-system state (`UndoSystemData`): the store pointer, the ring
buffer of owned commands (a destroyed or never-filled slot is `none`), and
the head/tail/count bookkeeping. `maxHistorySize` is the slot capacity. -/
structure UndoSystemData where
  am : AnimationManagerData
  history : List (Option Command)
  numCommands : Nat
  undoCursorTail : Nat
  undoCursorHead : Nat
  maxHistorySize : Nat
deriving DecidableEq, Repr

/-- Error condition of `init` (the fatal `g_logger_assert` on an invalid
capacity). -/
inductive UndoSystemError where
  | invalidConfiguration
deriving DecidableEq, Repr

namespace UndoSystem

/-- Indices visited by the C ring loop
`for (i = start; i != target; i = (i + 1) % cap)` — the forward range from
`start` to `target`, of length `(target + cap - start) % cap`. -/
def ringRange (cap start target : Nat) : List Nat :=
  (List.range ((target + cap - start) % cap)).map (fun k => (start + k) % cap)

/-- `UndoSystem::init` (UndoSystem.cpp lines 77-91). The capacity argument
is a C `int`; a capacity not greater than 1 hits the fatal assertion,
modelled as the `invalidConfiguration` error. Otherwise the slot array is
allocated and all cursors start at zero. -/
def init (am : AnimationManagerData) (maxHistory : Int) :
    Except UndoSystemError UndoSystemData :=
  if 1 < maxHistory then
    .ok { am := am
          history := List.replicate maxHistory.toNat none
          numCommands := 0
          undoCursorTail := 0
          undoCursorHead := 0
          maxHistorySize := maxHistory.toNat }
  else
    .error .invalidConfiguration

/-- `UndoSystem::undo` (UndoSystem.cpp lines 111-128). A no-op when
`head == tail`; otherwise steps `tail` back by one (wrapping) and invokes
the reverse operation of the command at the new `tail`. The `none` slot
fallback is unreachable under the ring invariant, where every slot in the
live window holds a command. -/
def undo (us : UndoSystemData) : UndoSystemData :=
  if us.undoCursorHead = us.undoCursorTail then us
  else
    let offsetToUndo :=
      if us.undoCursorTail = 0 then us.maxHistorySize - 1 else us.undoCursorTail - 1
    { us with
        am :=
          match us.history.getD offsetToUndo none with
          | some c => c.undo us.am
          | none => us.am
        undoCursorTail := offsetToUndo }

/-- `UndoSystem::redo` (UndoSystem.cpp lines 130-141). A no-op when
`tail == (head + count) % cap`; otherwise re-executes the command at `tail`
(which may update the command in place) and advances `tail`. -/
def redo (us : UndoSystemData) : UndoSystemData :=
  if (us.undoCursorHead + us.numCommands) % us.maxHistorySize = us.undoCursorTail then
    us
  else
    { us with
        am :=
          match us.history.getD us.undoCursorTail none with
          | some c => (c.execute us.am).2
          | none => us.am
        history :=
          match us.history.getD us.undoCursorTail none with
          | some c => us.history.set us.undoCursorTail (some (c.execute us.am).1)
          | none => us.history
        undoCursorTail := (us.undoCursorTail + 1) % us.maxHistorySize }

/-- `pushAndExecuteCommand` (UndoSystem.cpp lines 173-208): truncate the
redo branch `[tail, head + count)` (each destroyed slot becomes `none`) and
reduce `count` accordingly; evict the oldest command when the buffer is
full; store the new command at `tail`, bump `count`, advance `tail`; finally
execute the stored command (whose in-place mutation lands in the slot). -/
def pushAndExecuteCommand (us : UndoSystemData) (command : Command) :
    UndoSystemData :=
  let target := (us.undoCursorHead + us.numCommands) % us.maxHistorySize
  let removed := ringRange us.maxHistorySize us.undoCursorTail target
  let hist1 := removed.foldl (fun h i => h.set i none) us.history
  let numCommands1 := us.numCommands - removed.length
  let evict := (us.undoCursorTail + 1) % us.maxHistorySize = us.undoCursorHead
  let hist2 := if evict then hist1.set us.undoCursorHead none else hist1
  let head2 := if evict then (us.undoCursorHead + 1) % us.maxHistorySize
               else us.undoCursorHead
  let numCommands2 := if evict then numCommands1 - 1 else numCommands1
  let res := command.execute us.am
  { am := res.2
    history := hist2.set us.undoCursorTail (some res.1)
    numCommands := numCommands2 + 1
    undoCursorTail := (us.undoCursorTail + 1) % us.maxHistorySize
    undoCursorHead := head2
    maxHistorySize := us.maxHistorySize }

/-- `UndoSystem::setU8Vec4Prop` (UndoSystem.cpp lines 150-155): construct a
ModifyU8Vec4Command and record-and-apply it. -/
def setU8Vec4Prop (us : UndoSystemData) (objId : AnimObjId)
    (oldVec newVec : U8Vec4) (propType : U8Vec4PropType) : UndoSystemData :=
  pushAndExecuteCommand us (.modifyU8Vec4 objId oldVec newVec propType)

/-- `UndoSystem::applyU8Vec4ToChildren` (UndoSystem.cpp lines 143-148):
construct an ApplyU8Vec4ToChildrenCommand with an empty snapshot and
record-and-apply it. -/
def applyU8Vec4ToChildren (us : UndoSystemData) (id : AnimObjId)
    (propType : U8Vec4PropType) : UndoSystemData :=
  pushAndExecuteCommand us (.applyU8Vec4ToChildren id propType [])

/-- `UndoSystem::addNewObjToScene` (UndoSystem.cpp lines 159-162): the body
is empty. -/
def addNewObjToScene (us : UndoSystemData) (_obj : AnimObject) : UndoSystemData :=
  us

/-- `UndoSystem::removeObjFromScene` (UndoSystem.cpp lines 164-167): the
body is empty. -/
def removeObjFromScene (us : UndoSystemData) (_objId : AnimObjId) : UndoSystemData :=
  us

end UndoSystem

/-- Indices of the live window `[head, head + count)` in ring order. -/
def liveWindow (us : UndoSystemData) : List Nat :=
  (List.range us.numCommands).map
    (fun k => (us.undoCursorHead + k) % us.maxHistorySize)

/-- Slot contents of the live window `[head, head + count)`, oldest first:
the commands the log currently retains. -/
def liveCommands (us : UndoSystemData) : List (Option Command) :=
  (liveWindow us).map (fun i => us.history.getD i none)

/-- Cursor-and-count bookkeeping of the log, separated from the store and
slot contents. -/
def cursors (us : UndoSystemData) : Nat × Nat × Nat × Nat :=
  (us.undoCursorHead, us.undoCursorTail, us.numCommands, us.maxHistorySize)

/-- Observable log state: everything except the notification trace of the
store — the object table, the slots, and the bookkeeping. -/
def obs (us : UndoSystemData) :
    List (AnimObjId × AnimObject) × List (Option Command) × Nat × Nat × Nat × Nat :=
  (us.am.objects, us.history, us.numCommands, us.undoCursorTail,
   us.undoCursorHead, us.maxHistorySize)

/-- Ring-buffer well-formedness: established by `init` and preserved by
every operation. The capacity is at least 2, the cursors are in range, at
most `capacity - 1` commands are retained, the slot array has exactly
`capacity` slots, and `tail` lies in the window `[head, head + count]`
(witnessed by its forward distance `d` from `head`). -/
def WF (us : UndoSystemData) : Prop :=
  2 ≤ us.maxHistorySize ∧
  us.undoCursorHead < us.maxHistorySize ∧
  us.undoCursorTail < us.maxHistorySize ∧
  us.numCommands ≤ us.maxHistorySize - 1 ∧
  us.history.length = us.maxHistorySize ∧
  ∃ d, d ≤ us.numCommands ∧
    us.undoCursorTail = (us.undoCursorHead + d) % us.maxHistorySize

/-! Concrete fixtures used by witnesses and counterexamples. -/

/-- Arbitrary command used as the default of list lookups in statements
about command sequences. -/
def defaultCommand : Command :=
  .modifyU8Vec4 0 ⟨0, 0, 0, 0⟩ ⟨0, 0, 0, 0⟩ .FillColor

/-- Concrete store with a single object (id 5, no children). -/
def amFix : AnimationManagerData :=
  { objects := [(5, { _fillColorStart := ⟨255, 0, 0, 255⟩
                      _strokeColorStart := ⟨255, 0, 0, 255⟩
                      children := [] })]
    notified := [] }

/-- Concrete capacity-2 log over `amFix`, exactly the state `init` returns. -/
def usCap2 : UndoSystemData :=
  { am := amFix
    history := [none, none]
    numCommands := 0
    undoCursorTail := 0
    undoCursorHead := 0
    maxHistorySize := 2 }

/-- First concrete property-modification command. -/
def cmdA : Command := .modifyU8Vec4 5 ⟨255, 0, 0, 255⟩ ⟨0, 0, 255, 255⟩ .FillColor

/-- Second concrete property-modification command. -/
def cmdB : Command := .modifyU8Vec4 5 ⟨0, 0, 255, 255⟩ ⟨0, 255, 0, 255⟩ .FillColor

/-- Third concrete property-modification command. -/
def cmdC : Command := .modifyU8Vec4 5 ⟨0, 255, 0, 255⟩ ⟨255, 255, 0, 255⟩ .FillColor

/-- Concrete store for the apply-to-children scenarios: target 100 (fill
all-1, stroke all-9) with a single descendant 101 (fill all-2, stroke
all-3). -/
def amTree : AnimationManagerData :=
  { objects := [(100, { _fillColorStart := ⟨1, 1, 1, 1⟩
                        _strokeColorStart := ⟨9, 9, 9, 9⟩
                        children := [101] }),
                (101, { _fillColorStart := ⟨2, 2, 2, 2⟩
                        _strokeColorStart := ⟨3, 3, 3, 3⟩
                        children := [] })]
    notified := [] }

end MathAnim

namespace MathAnim

/-! Theorems. First a toolkit of ring-arithmetic and list lemmas. -/

theorem getD_set_self_lt {α : Type} (l : List α) (i : Nat) (v d : α)
    (h : i < l.length) : (l.set i v).getD i d = v := by
  rw [List.getD_eq_getElem?_getD, List.getElem?_set_eq_of_lt v h]
  rfl

theorem getD_set_ne {α : Type} (l : List α) (i j : Nat) (v d : α)
    (h : i ≠ j) : (l.set i v).getD j d = l.getD j d := by
  rw [List.getD_eq_getElem?_getD, List.getElem?_set_ne h,
    ← List.getD_eq_getElem?_getD]

theorem set_eq_self_of_get {α : Type} (l : List α) (i : Nat) (v : α)
    (h : l.get? i = some v) : l.set i v = l := by
  induction l generalizing i with
  | nil => rfl
  | cons a t ih =>
    cases i with
    | zero => simp_all [List.get?]
    | succ n => simp_all [List.get?, List.set]

theorem ring_dist (cap m e : Nat) (hc : 0 < cap) (he : e < cap) :
    ((m + e) % cap + cap - m % cap) % cap = e := by
  have ha : m % cap < cap := Nat.mod_lt _ hc
  have hme : (m + e) % cap = (m % cap + e) % cap := by
    rw [Nat.add_mod, Nat.mod_eq_of_lt he]
  rcases lt_or_ge (m % cap + e) cap with hlt | hge
  · rw [hme, Nat.mod_eq_of_lt hlt]
    have he2 : m % cap + e + cap - m % cap = e + cap := by omega
    rw [he2, Nat.add_mod_right, Nat.mod_eq_of_lt he]
  · have h2 : (m % cap + e) % cap = m % cap + e - cap := by
      rw [Nat.mod_eq_sub_mod hge, Nat.mod_eq_of_lt (by omega)]
    rw [hme, h2]
    have he3 : m % cap + e - cap + cap - m % cap = e := by omega
    rw [he3, Nat.mod_eq_of_lt he]

theorem succ_mod_eq_iff (cap h d : Nat) (hh : h < cap) (hd : d < cap) :
    (((h + d) % cap + 1) % cap = h ↔ d = cap - 1) := by
  rw [Nat.mod_add_mod]
  constructor
  · intro heq
    by_contra hne
    have hs : h + d + 1 < h + cap := by omega
    rcases lt_or_ge (h + d + 1) cap with hlt | hge
    · rw [Nat.mod_eq_of_lt hlt] at heq
      omega
    · rw [Nat.mod_eq_sub_mod hge, Nat.mod_eq_of_lt (by omega)] at heq
      omega
  · intro heq
    subst heq
    have he : h + (cap - 1) + 1 = h + cap := by omega
    rw [he, Nat.add_mod_right, Nat.mod_eq_of_lt hh]

theorem succ_mod_ne (cap t : Nat) (hc : 2 ≤ cap) (ht : t < cap) :
    (t + 1) % cap ≠ t := by
  rcases lt_or_ge (t + 1) cap with hlt | hge
  · rw [Nat.mod_eq_of_lt hlt]
    omega
  · rw [Nat.mod_eq_sub_mod hge, Nat.mod_eq_of_lt (by omega)]
    omega

theorem pred_succ_mod (cap t : Nat) (hc : 0 < cap) (ht : t < cap) :
    (if (t + 1) % cap = 0 then cap - 1 else (t + 1) % cap - 1) = t := by
  rcases lt_or_ge (t + 1) cap with hlt | hge
  · rw [Nat.mod_eq_of_lt hlt]
    have hne : ¬ (t + 1 = 0) := by omega
    rw [if_neg hne]
    omega
  · have he : t + 1 = cap := by omega
    have h0 : (t + 1) % cap = 0 := by
      rw [he, Nat.mod_self]
    rw [if_pos h0]
    omega

theorem pred_mod_shift (cap x : Nat) (hc : 0 < cap) (hx : 1 ≤ x) :
    (if x % cap = 0 then cap - 1 else x % cap - 1) = (x - 1) % cap := by
  have hd := Nat.div_add_mod x cap
  have hmlt : x % cap < cap := Nat.mod_lt _ hc
  rcases Nat.eq_zero_or_pos (x % cap) with h0 | hpos
  · rw [if_pos h0]
    have hq : 1 ≤ x / cap := by
      rcases Nat.eq_zero_or_pos (x / cap) with hq0 | hq1
      · rw [hq0, Nat.mul_zero] at hd
        omega
      · exact hq1
    obtain ⟨k, hk⟩ := Nat.exists_eq_add_of_le hq
    have hmul : cap * (x / cap) = cap * k + cap := by
      rw [hk, Nat.mul_add, Nat.mul_one, Nat.add_comm]
    have hx1 : x - 1 = cap * k + (cap - 1) := by omega
    rw [hx1, Nat.mul_add_mod,
      Nat.mod_eq_of_lt (show cap - 1 < cap by omega)]
  · rw [if_neg (by omega)]
    have hx1 : x - 1 = cap * (x / cap) + (x % cap - 1) := by omega
    rw [hx1, Nat.mul_add_mod,
      Nat.mod_eq_of_lt (show x % cap - 1 < cap by omega)]

theorem ringRange_length (cap start target : Nat) :
    (UndoSystem.ringRange cap start target).length = (target + cap - start) % cap := by
  simp [UndoSystem.ringRange]

theorem length_foldl_setNone (l : List Nat) (hist : List (Option Command)) :
    (l.foldl (fun acc i => acc.set i none) hist).length = hist.length := by
  induction l generalizing hist with
  | nil => rfl
  | cons a t ih =>
    rw [List.foldl_cons, ih, List.length_set]

theorem getD_setNone_self (hist : List (Option Command)) (i : Nat) :
    (hist.set i none).getD i none = none := by
  rcases lt_or_ge i hist.length with hlt | hge
  · exact getD_set_self_lt hist i none none hlt
  · rw [List.getD_eq_getElem?_getD, List.getElem?_eq_none]
    · rfl
    · rw [List.length_set]
      exact hge

theorem getD_foldl_setNone (l : List Nat) (hist : List (Option Command)) (i : Nat)
    (hyp : i ∈ l ∨ hist.getD i none = none) :
    (l.foldl (fun acc j => acc.set j none) hist).getD i none = none := by
  induction l generalizing hist with
  | nil =>
    rcases hyp with hmem | hnone
    · cases hmem
    · exact hnone
  | cons a t ih =>
    rw [List.foldl_cons]
    apply ih
    rcases hyp with hmem | hnone
    · rcases List.mem_cons.1 hmem with heq | hmem2
      · subst heq
        exact Or.inr (getD_setNone_self hist i)
      · exact Or.inl hmem2
    · rcases eq_or_ne a i with heq | hne
      · rw [heq]
        exact Or.inr (getD_setNone_self hist i)
      · refine Or.inr ?_
        rw [getD_set_ne hist a i none none hne]
        exact hnone

theorem getD_set_none_of_none (hist : List (Option Command)) (i j : Nat)
    (h : hist.getD i none = none) : (hist.set j none).getD i none = none := by
  rcases eq_or_ne j i with heq | hne
  · rw [heq]
    exact getD_setNone_self hist i
  · rw [getD_set_ne hist j i none none hne]
    exact h

theorem push_state (us : UndoSystemData) (c : Command) (hwf : WF us) :
    (UndoSystem.pushAndExecuteCommand us c).maxHistorySize = us.maxHistorySize ∧
    (UndoSystem.pushAndExecuteCommand us c).undoCursorTail
      = (us.undoCursorTail + 1) % us.maxHistorySize ∧
    (UndoSystem.pushAndExecuteCommand us c).am = (c.execute us.am).2 ∧
    (UndoSystem.pushAndExecuteCommand us c).history.length = us.maxHistorySize ∧
    (UndoSystem.pushAndExecuteCommand us c).history.getD us.undoCursorTail none
      = some (c.execute us.am).1 ∧
    (UndoSystem.pushAndExecuteCommand us c).undoCursorHead
      ≠ (UndoSystem.pushAndExecuteCommand us c).undoCursorTail ∧
    ((UndoSystem.pushAndExecuteCommand us c).undoCursorHead
        + (UndoSystem.pushAndExecuteCommand us c).numCommands) % us.maxHistorySize
      = (UndoSystem.pushAndExecuteCommand us c).undoCursorTail ∧
    (UndoSystem.pushAndExecuteCommand us c).numCommands
        + (UndoSystem.ringRange us.maxHistorySize us.undoCursorTail
            ((us.undoCursorHead + us.numCommands) % us.maxHistorySize)).length
        + (if (us.undoCursorTail + 1) % us.maxHistorySize = us.undoCursorHead
           then 1 else 0)
      = us.numCommands + 1 ∧
    WF (UndoSystem.pushAndExecuteCommand us c) := by
  obtain ⟨hcap, hh, ht, hcnt, hlen, d, hd, htl⟩ := hwf
  have hd2 : d < us.maxHistorySize := by omega
  have hH : (UndoSystem.pushAndExecuteCommand us c).undoCursorHead
      = (if (us.undoCursorTail + 1) % us.maxHistorySize = us.undoCursorHead
          then (us.undoCursorHead + 1) % us.maxHistorySize else us.undoCursorHead) := rfl
  have hT : (UndoSystem.pushAndExecuteCommand us c).undoCursorTail
      = (us.undoCursorTail + 1) % us.maxHistorySize := rfl
  have hM : (UndoSystem.pushAndExecuteCommand us c).maxHistorySize
      = us.maxHistorySize := rfl
  have hN : (UndoSystem.pushAndExecuteCommand us c).numCommands
      = (if (us.undoCursorTail + 1) % us.maxHistorySize = us.undoCursorHead
          then us.numCommands
              - (UndoSystem.ringRange us.maxHistorySize us.undoCursorTail
                  ((us.undoCursorHead + us.numCommands) % us.maxHistorySize)).length
              - 1
          else us.numCommands
              - (UndoSystem.ringRange us.maxHistorySize us.undoCursorTail
                  ((us.undoCursorHead + us.numCommands) % us.maxHistorySize)).length)
        + 1 := rfl
  have hHist : (UndoSystem.pushAndExecuteCommand us c).history
      = (if (us.undoCursorTail + 1) % us.maxHistorySize = us.undoCursorHead
          then ((UndoSystem.ringRange us.maxHistorySize us.undoCursorTail
                  ((us.undoCursorHead + us.numCommands) % us.maxHistorySize)).foldl
                  (fun h i => h.set i none) us.history).set us.undoCursorHead none
          else (UndoSystem.ringRange us.maxHistorySize us.undoCursorTail
                  ((us.undoCursorHead + us.numCommands) % us.maxHistorySize)).foldl
                  (fun h i => h.set i none) us.history).set
          us.undoCursorTail (some (c.execute us.am).1) := rfl
  have hβ : (UndoSystem.ringRange us.maxHistorySize us.undoCursorTail
      ((us.undoCursorHead + us.numCommands) % us.maxHistorySize)).length
      = us.numCommands - d := by
    rw [ringRange_length, htl]
    have hsplit : us.undoCursorHead + us.numCommands
        = (us.undoCursorHead + d) + (us.numCommands - d) := by omega
    rw [hsplit]
    exact ring_dist us.maxHistorySize (us.undoCursorHead + d) (us.numCommands - d)
      (by omega) (by omega)
  have hevIff : ((us.undoCursorTail + 1) % us.maxHistorySize = us.undoCursorHead)
      ↔ d = us.maxHistorySize - 1 := by
    rw [htl]
    exact succ_mod_eq_iff us.maxHistorySize us.undoCursorHead d hh hd2
  have htail1 : (us.undoCursorTail + 1) % us.maxHistorySize
      = (us.undoCursorHead + d + 1) % us.maxHistorySize := by
    rw [htl]
    exact Nat.mod_add_mod (us.undoCursorHead + d) us.maxHistorySize 1
  have hLen : (UndoSystem.pushAndExecuteCommand us c).history.length
      = us.maxHistorySize := by
    rw [hHist, List.length_set]
    by_cases hev : (us.undoCursorTail + 1) % us.maxHistorySize = us.undoCursorHead
    · rw [if_pos hev, List.length_set, length_foldl_setNone, hlen]
    · rw [if_neg hev, length_foldl_setNone, hlen]
  have hSlot : (UndoSystem.pushAndExecuteCommand us c).history.getD
      us.undoCursorTail none = some (c.execute us.am).1 := by
    rw [hHist]
    apply getD_set_self_lt
    have hl2 : ((if (us.undoCursorTail + 1) % us.maxHistorySize = us.undoCursorHead
          then ((UndoSystem.ringRange us.maxHistorySize us.undoCursorTail
                  ((us.undoCursorHead + us.numCommands) % us.maxHistorySize)).foldl
                  (fun h i => h.set i none) us.history).set us.undoCursorHead none
          else (UndoSystem.ringRange us.maxHistorySize us.undoCursorTail
                  ((us.undoCursorHead + us.numCommands) % us.maxHistorySize)).foldl
                  (fun h i => h.set i none) us.history)).length = us.maxHistorySize := by
      by_cases hev : (us.undoCursorTail + 1) % us.maxHistorySize = us.undoCursorHead
      · rw [if_pos hev, List.length_set, length_foldl_setNone, hlen]
      · rw [if_neg hev, length_foldl_setNone, hlen]
    rw [hl2]
    exact ht
  by_cases hev : (us.undoCursorTail + 1) % us.maxHistorySize = us.undoCursorHead
  · -- eviction case: the window is full, d = cap - 1 = count
    have hdc : d = us.maxHistorySize - 1 := hevIff.1 hev
    have hcd : us.numCommands = d := by omega
    have hTh : (UndoSystem.pushAndExecuteCommand us c).undoCursorTail
        = us.undoCursorHead := by
      rw [hT, htail1]
      have : us.undoCursorHead + d + 1 = us.undoCursorHead + us.maxHistorySize := by
        omega
      rw [this, Nat.add_mod_right, Nat.mod_eq_of_lt hh]
    have hHh : (UndoSystem.pushAndExecuteCommand us c).undoCursorHead
        = (us.undoCursorHead + 1) % us.maxHistorySize := by
      rw [hH, if_pos hev]
    have hNn : (UndoSystem.pushAndExecuteCommand us c).numCommands
        = us.maxHistorySize - 1 := by
      rw [hN, if_pos hev, hβ]
      omega
    have hHC : ((UndoSystem.pushAndExecuteCommand us c).undoCursorHead
        + (UndoSystem.pushAndExecuteCommand us c).numCommands) % us.maxHistorySize
        = (UndoSystem.pushAndExecuteCommand us c).undoCursorTail := by
      rw [hHh, hNn, hTh, Nat.mod_add_mod]
      have : us.undoCursorHead + 1 + (us.maxHistorySize - 1)
          = us.undoCursorHead + us.maxHistorySize := by omega
      rw [this, Nat.add_mod_right, Nat.mod_eq_of_lt hh]
    refine ⟨hM, hT, rfl, hLen, hSlot, ?_, hHC, ?_, ?_⟩
    · rw [hHh, hTh]
      exact succ_mod_ne us.maxHistorySize us.undoCursorHead hcap hh
    · rw [hNn, hβ, if_pos hev]
      omega
    · refine ⟨by rw [hM]; exact hcap, ?_, ?_, ?_, by rw [hM]; exact hLen,
        us.maxHistorySize - 1, ?_, ?_⟩
      · rw [hHh, hM]
        exact Nat.mod_lt _ (by omega)
      · rw [hTh, hM]
        exact hh
      · rw [hNn, hM]
      · rw [hNn]
      · rw [hTh, hHh, hM, Nat.mod_add_mod]
        have : us.undoCursorHead + 1 + (us.maxHistorySize - 1)
            = us.undoCursorHead + us.maxHistorySize := by omega
        rw [this, Nat.add_mod_right, Nat.mod_eq_of_lt hh]
  · -- no eviction: d < cap - 1
    have hdc : d ≠ us.maxHistorySize - 1 := fun hcon => hev (hevIff.2 hcon)
    have hHh : (UndoSystem.pushAndExecuteCommand us c).undoCursorHead
        = us.undoCursorHead := by
      rw [hH, if_neg hev]
    have hNn : (UndoSystem.pushAndExecuteCommand us c).numCommands = d + 1 := by
      rw [hN, if_neg hev, hβ]
      omega
    have hHC : ((UndoSystem.pushAndExecuteCommand us c).undoCursorHead
        + (UndoSystem.pushAndExecuteCommand us c).numCommands) % us.maxHistorySize
        = (UndoSystem.pushAndExecuteCommand us c).undoCursorTail := by
      rw [hHh, hNn, hT, htail1]
      have : us.undoCursorHead + (d + 1) = us.undoCursorHead + d + 1 := by omega
      rw [this]
    refine ⟨hM, hT, rfl, hLen, hSlot, ?_, hHC, ?_, ?_⟩
    · rw [hHh, hT]
      intro hcon
      exact hev hcon.symm
    · rw [hNn, hβ, if_neg hev]
      omega
    · refine ⟨by rw [hM]; exact hcap, ?_, ?_, ?_, by rw [hM]; exact hLen,
        d + 1, ?_, ?_⟩
      · rw [hHh, hM]
        exact hh
      · rw [hT, hM]
        exact Nat.mod_lt _ (by omega)
      · rw [hNn, hM]
        omega
      · rw [hNn]
      · rw [hT, hHh, hM, htail1]
        have : us.undoCursorHead + (d + 1) = us.undoCursorHead + d + 1 := by omega
        rw [this]

theorem undo_bookkeeping (us : UndoSystemData) :
    (UndoSystem.undo us).history = us.history ∧
    (UndoSystem.undo us).undoCursorHead = us.undoCursorHead ∧
    (UndoSystem.undo us).numCommands = us.numCommands ∧
    (UndoSystem.undo us).maxHistorySize = us.maxHistorySize := by
  unfold UndoSystem.undo
  split
  · exact ⟨rfl, rfl, rfl, rfl⟩
  · exact ⟨rfl, rfl, rfl, rfl⟩

theorem undo_tail_eq (us : UndoSystemData)
    (hne : ¬ us.undoCursorHead = us.undoCursorTail) :
    (UndoSystem.undo us).undoCursorTail
      = (if us.undoCursorTail = 0 then us.maxHistorySize - 1
         else us.undoCursorTail - 1) := by
  unfold UndoSystem.undo
  rw [if_neg hne]

theorem undo_of_slot (us : UndoSystemData) (c : Command)
    (hne : ¬ us.undoCursorHead = us.undoCursorTail)
    (hslot : us.history.getD
        (if us.undoCursorTail = 0 then us.maxHistorySize - 1
         else us.undoCursorTail - 1) none = some c) :
    UndoSystem.undo us =
      { us with
          am := c.undo us.am
          undoCursorTail :=
            if us.undoCursorTail = 0 then us.maxHistorySize - 1
            else us.undoCursorTail - 1 } := by
  unfold UndoSystem.undo
  rw [if_neg hne]
  simp only [hslot]

theorem redo_bookkeeping (us : UndoSystemData)
    (hne : ¬ (us.undoCursorHead + us.numCommands) % us.maxHistorySize
        = us.undoCursorTail) :
    (UndoSystem.redo us).undoCursorHead = us.undoCursorHead ∧
    (UndoSystem.redo us).numCommands = us.numCommands ∧
    (UndoSystem.redo us).maxHistorySize = us.maxHistorySize ∧
    (UndoSystem.redo us).undoCursorTail
      = (us.undoCursorTail + 1) % us.maxHistorySize ∧
    (UndoSystem.redo us).history.length = us.history.length := by
  unfold UndoSystem.redo
  rw [if_neg hne]
  split
  · exact ⟨rfl, rfl, rfl, rfl, by rw [List.length_set]⟩
  · exact ⟨rfl, rfl, rfl, rfl, rfl⟩

theorem redo_of_slot (us : UndoSystemData) (c : Command)
    (hne : ¬ (us.undoCursorHead + us.numCommands) % us.maxHistorySize
        = us.undoCursorTail)
    (hslot : us.history.getD us.undoCursorTail none = some c) :
    UndoSystem.redo us =
      { us with
          am := (c.execute us.am).2
          history := us.history.set us.undoCursorTail (some (c.execute us.am).1)
          undoCursorTail := (us.undoCursorTail + 1) % us.maxHistorySize } := by
  unfold UndoSystem.redo
  rw [if_neg hne]
  simp only [hslot]

theorem undo_WF (us : UndoSystemData) (hwf : WF us) : WF (UndoSystem.undo us) := by
  obtain ⟨hcap, hh, ht, hcnt, hlen, d, hd, htl⟩ := hwf
  by_cases heq : us.undoCursorHead = us.undoCursorTail
  · have hid : UndoSystem.undo us = us := by
      unfold UndoSystem.undo
      rw [if_pos heq]
    rw [hid]
    exact ⟨hcap, hh, ht, hcnt, hlen, d, hd, htl⟩
  · have hd1 : 1 ≤ d := by
      rcases Nat.eq_zero_or_pos d with h0 | h1
      · exfalso
        apply heq
        rw [htl, h0, Nat.add_zero, Nat.mod_eq_of_lt hh]
      · exact h1
    obtain ⟨hbH, hbh, hbn, hbm⟩ := undo_bookkeeping us
    have htail : (UndoSystem.undo us).undoCursorTail
        = (us.undoCursorHead + (d - 1)) % us.maxHistorySize := by
      rw [undo_tail_eq us heq, htl,
        pred_mod_shift us.maxHistorySize (us.undoCursorHead + d) (by omega) (by omega)]
      have : us.undoCursorHead + d - 1 = us.undoCursorHead + (d - 1) := by omega
      rw [this]
    refine ⟨by rw [hbm]; exact hcap, by rw [hbh, hbm]; exact hh, ?_,
      by rw [hbn, hbm]; exact hcnt, by rw [hbH, hbm]; exact hlen,
      d - 1, by rw [hbn]; omega, by rw [htail, hbh, hbm]⟩
    rw [htail, hbm]
    exact Nat.mod_lt _ (by omega)

theorem redo_WF (us : UndoSystemData) (hwf : WF us) : WF (UndoSystem.redo us) := by
  obtain ⟨hcap, hh, ht, hcnt, hlen, d, hd, htl⟩ := hwf
  by_cases heq : (us.undoCursorHead + us.numCommands) % us.maxHistorySize
      = us.undoCursorTail
  · have hid : UndoSystem.redo us = us := by
      unfold UndoSystem.redo
      rw [if_pos heq]
    rw [hid]
    exact ⟨hcap, hh, ht, hcnt, hlen, d, hd, htl⟩
  · have hdlt : d < us.numCommands := by
      rcases Nat.lt_or_ge d us.numCommands with hlt | hge
      · exact hlt
      · exfalso
        apply heq
        have : d = us.numCommands := by omega
        rw [htl, this]
    obtain ⟨hbh, hbn, hbm, hbt, hbl⟩ := redo_bookkeeping us heq
    have htail : (UndoSystem.redo us).undoCursorTail
        = (us.undoCursorHead + (d + 1)) % us.maxHistorySize := by
      rw [hbt, htl, Nat.mod_add_mod]
      have : us.undoCursorHead + d + 1 = us.undoCursorHead + (d + 1) := by omega
      rw [this]
    refine ⟨by rw [hbm]; exact hcap, by rw [hbh, hbm]; exact hh, ?_,
      by rw [hbn, hbm]; exact hcnt, by rw [hbl, hbm]; exact hlen,
      d + 1, by rw [hbn]; omega, by rw [htail, hbh, hbm]⟩
    rw [htail, hbm]
    exact Nat.mod_lt _ (by omega)

/-- C10: the public entry points `addNewObjToScene` and
`removeObjFromScene` have empty bodies: for every log state and every
argument they record no command, invoke nothing on the store, and leave the
entire log state unchanged. -/
theorem C10_scene_entry_points_no_effect :
    ∀ (us : UndoSystemData) (obj : AnimObject) (objId : AnimObjId),
      UndoSystem.addNewObjToScene us obj = us ∧
      UndoSystem.removeObjFromScene us objId = us :=
  fun _ _ _ => ⟨rfl, rfl⟩

/-- C8: `init` with capacity at most 1 fails with the fatal
invalid-configuration condition; with capacity at least 2 it succeeds,
allocates exactly `capacity` slots, and starts with
`head = tail = count = 0`. -/
theorem C8_init_capacity :
    ∀ (am : AnimationManagerData) (m : Int),
      (m ≤ 1 → UndoSystem.init am m = .error .invalidConfiguration) ∧
      (2 ≤ m → ∃ us, UndoSystem.init am m = .ok us ∧
        us.maxHistorySize = m.toNat ∧ us.history.length = m.toNat ∧
        us.undoCursorHead = 0 ∧ us.undoCursorTail = 0 ∧ us.numCommands = 0) := by
  intro am m
  constructor
  · intro h
    simp only [UndoSystem.init, if_neg (by omega : ¬ 1 < m)]
  · intro h
    refine ⟨{ am := am
              history := List.replicate m.toNat none
              numCommands := 0
              undoCursorTail := 0
              undoCursorHead := 0
              maxHistorySize := m.toNat }, ?_, rfl, by simp, rfl, rfl, rfl⟩
    simp only [UndoSystem.init, if_pos (by omega : 1 < m)]

/-- Witness for C8 at capacity 1 (failure) and capacity 2 (success). -/
theorem C8_init_capacity_witness :
    UndoSystem.init amFix 1 = .error .invalidConfiguration ∧
    ∃ us, UndoSystem.init amFix 2 = .ok us ∧
      us.maxHistorySize = (2 : Int).toNat ∧ us.history.length = (2 : Int).toNat ∧
      us.undoCursorHead = 0 ∧ us.undoCursorTail = 0 ∧ us.numCommands = 0 :=
  ⟨(C8_init_capacity amFix 1).1 (by norm_num),
   (C8_init_capacity amFix 2).2 (by norm_num)⟩

/-- C7: `undo` is a no-op (and stays a no-op on repetition) whenever
`head = tail`, and `redo` is a no-op (and stays a no-op on repetition)
whenever `tail = (head + count) % capacity`; in both cases the whole state,
store included, is unchanged. -/
theorem C7_undo_redo_noop (us : UndoSystemData) :
    (us.undoCursorHead = us.undoCursorTail →
      UndoSystem.undo us = us ∧ UndoSystem.undo (UndoSystem.undo us) = us) ∧
    ((us.undoCursorHead + us.numCommands) % us.maxHistorySize = us.undoCursorTail →
      UndoSystem.redo us = us ∧ UndoSystem.redo (UndoSystem.redo us) = us) := by
  constructor
  · intro h
    have h1 : UndoSystem.undo us = us := by
      simp only [UndoSystem.undo, if_pos h]
    exact ⟨h1, by rw [h1, h1]⟩
  · intro h
    have h1 : UndoSystem.redo us = us := by
      simp only [UndoSystem.redo, if_pos h]
    exact ⟨h1, by rw [h1, h1]⟩

/-- Witness for C7 on the freshly initialized capacity-2 log. -/
theorem C7_undo_redo_noop_witness :
    (UndoSystem.undo usCap2 = usCap2 ∧
      UndoSystem.undo (UndoSystem.undo usCap2) = usCap2) ∧
    (UndoSystem.redo usCap2 = usCap2 ∧
      UndoSystem.redo (UndoSystem.redo usCap2) = usCap2) :=
  ⟨(C7_undo_redo_noop usCap2).1 (by decide),
   (C7_undo_redo_noop usCap2).2 (by decide)⟩

/-- C2, divergence witness: executing an apply-to-children command with the
`StrokeColor` selector on the concrete store `amTree` snapshots the
descendant's stroke color (all-3) but then writes the target's stroke color
(all-9) into the descendant's FILL color field, leaving the descendant's
stroke color unchanged — the selected property is never overwritten with
the target's value (UndoSystem.cpp line 269 writes `_fillColorStart`). -/
theorem C2_strokeColor_writes_fill_field :
    ((Command.applyU8Vec4ToChildren 100 .StrokeColor []).execute amTree).1 =
      Command.applyU8Vec4ToChildren 100 .StrokeColor [(101, ⟨3, 3, 3, 3⟩)] ∧
    getMutableObject ((Command.applyU8Vec4ToChildren 100 .StrokeColor []).execute amTree).2 101 =
      some { _fillColorStart := ⟨9, 9, 9, 9⟩
             _strokeColorStart := ⟨3, 3, 3, 3⟩
             children := [] } ∧
    (⟨3, 3, 3, 3⟩ : U8Vec4) ≠ ⟨9, 9, 9, 9⟩ := by
  refine ⟨by decide, by decide, by decide⟩

/-- C1, counterexample: a log of capacity 2 filled with 3 sequential
record-and-apply calls retains only the single most recent command, not the
2 most recent ones the claim promises — the ring buffer always keeps one
slot empty, so capacity N retains at most N - 1 commands. -/
theorem C1_capacity2_retains_one :
    UndoSystem.init amFix 2 = .ok usCap2 ∧
    liveCommands
        (UndoSystem.pushAndExecuteCommand
          (UndoSystem.pushAndExecuteCommand
            (UndoSystem.pushAndExecuteCommand usCap2 cmdA) cmdB) cmdC) =
      [some cmdC] ∧
    liveCommands
        (UndoSystem.pushAndExecuteCommand
          (UndoSystem.pushAndExecuteCommand
            (UndoSystem.pushAndExecuteCommand usCap2 cmdA) cmdB) cmdC) ≠
      [some cmdB, some cmdC] := by
  refine ⟨rfl, by decide, by decide⟩

/-- C9: the ring-buffer invariant — in particular that the number of
retained commands never exceeds `capacity - 1`, one slot staying logically
empty — is established by `init` and preserved by `pushAndExecuteCommand`,
`undo` and `redo`. -/
theorem C9_ring_invariant :
    (∀ am m us, UndoSystem.init am m = .ok us → WF us) ∧
    (∀ us c, WF us → WF (UndoSystem.pushAndExecuteCommand us c)) ∧
    (∀ us, WF us → WF (UndoSystem.undo us)) ∧
    (∀ us, WF us → WF (UndoSystem.redo us)) ∧
    (∀ us, WF us → us.numCommands ≤ us.maxHistorySize - 1) := by
  refine ⟨?_, ?_, ?_, ?_, ?_⟩
  · intro am m us hinit
    unfold UndoSystem.init at hinit
    by_cases hm : 1 < m
    · rw [if_pos hm] at hinit
      injection hinit with hrec
      subst hrec
      exact ⟨show 2 ≤ m.toNat by omega,
        show (0 : Nat) < m.toNat by omega,
        show (0 : Nat) < m.toNat by omega,
        Nat.zero_le _,
        show (List.replicate m.toNat (none : Option Command)).length = m.toNat by simp,
        0, Nat.le_refl 0,
        show (0 : Nat) = (0 + 0) % m.toNat by simp⟩
    · rw [if_neg hm] at hinit
      simp at hinit
  · intro us c hwf
    exact (push_state us c hwf).2.2.2.2.2.2.2.2
  · intro us hwf
    exact undo_WF us hwf
  · intro us hwf
    exact redo_WF us hwf
  · intro us hwf
    exact hwf.2.2.2.1

/-- Witness for C9 on the freshly initialized capacity-2 log and a concrete
command. -/
theorem C9_ring_invariant_witness :
    WF usCap2 ∧ WF (UndoSystem.pushAndExecuteCommand usCap2 cmdA) ∧
    WF (UndoSystem.undo usCap2) ∧ WF (UndoSystem.redo usCap2) ∧
    usCap2.numCommands ≤ usCap2.maxHistorySize - 1 :=
  have hwf : WF usCap2 := C9_ring_invariant.1 amFix 2 usCap2 rfl
  ⟨hwf, C9_ring_invariant.2.1 usCap2 cmdA hwf,
   C9_ring_invariant.2.2.1 usCap2 hwf,
   C9_ring_invariant.2.2.2.1 usCap2 hwf,
   C9_ring_invariant.2.2.2.2 usCap2 hwf⟩

/-- C6: recording a new command first destroys every live command in the
redo branch `[tail, head + count)` (every such slot other than `tail`,
which receives the new command, ends up empty), the count bookkeeping drops
by exactly the number destroyed (plus one more if the oldest command is
evicted) before gaining the new command, and immediately afterwards `redo`
is a no-op. -/
theorem C6_record_truncates_redo_branch (us : UndoSystemData) (c : Command)
    (hwf : WF us) :
    (∀ i ∈ UndoSystem.ringRange us.maxHistorySize us.undoCursorTail
        ((us.undoCursorHead + us.numCommands) % us.maxHistorySize),
      i ≠ us.undoCursorTail →
        (UndoSystem.pushAndExecuteCommand us c).history.getD i none = none) ∧
    (UndoSystem.pushAndExecuteCommand us c).history.getD us.undoCursorTail none
      = some (c.execute us.am).1 ∧
    (UndoSystem.pushAndExecuteCommand us c).numCommands
        + (UndoSystem.ringRange us.maxHistorySize us.undoCursorTail
            ((us.undoCursorHead + us.numCommands) % us.maxHistorySize)).length
        + (if (us.undoCursorTail + 1) % us.maxHistorySize = us.undoCursorHead
           then 1 else 0)
      = us.numCommands + 1 ∧
    UndoSystem.redo (UndoSystem.pushAndExecuteCommand us c)
      = UndoSystem.pushAndExecuteCommand us c := by
  have hps := push_state us c hwf
  have hHist : (UndoSystem.pushAndExecuteCommand us c).history
      = (if (us.undoCursorTail + 1) % us.maxHistorySize = us.undoCursorHead
          then ((UndoSystem.ringRange us.maxHistorySize us.undoCursorTail
                  ((us.undoCursorHead + us.numCommands) % us.maxHistorySize)).foldl
                  (fun h i => h.set i none) us.history).set us.undoCursorHead none
          else (UndoSystem.ringRange us.maxHistorySize us.undoCursorTail
                  ((us.undoCursorHead + us.numCommands) % us.maxHistorySize)).foldl
                  (fun h i => h.set i none) us.history).set
          us.undoCursorTail (some (c.execute us.am).1) := rfl
  refine ⟨?_, hps.2.2.2.2.1, hps.2.2.2.2.2.2.2.1, ?_⟩
  · intro i hmem hneq
    rw [hHist, getD_set_ne _ us.undoCursorTail i _ none (Ne.symm hneq)]
    by_cases hev : (us.undoCursorTail + 1) % us.maxHistorySize = us.undoCursorHead
    · rw [if_pos hev]
      exact getD_set_none_of_none _ i us.undoCursorHead
        (getD_foldl_setNone _ us.history i (Or.inl hmem))
    · rw [if_neg hev]
      exact getD_foldl_setNone _ us.history i (Or.inl hmem)
  · have hguard : ((UndoSystem.pushAndExecuteCommand us c).undoCursorHead
        + (UndoSystem.pushAndExecuteCommand us c).numCommands)
          % (UndoSystem.pushAndExecuteCommand us c).maxHistorySize
        = (UndoSystem.pushAndExecuteCommand us c).undoCursorTail := by
      rw [hps.1]
      exact hps.2.2.2.2.2.2.1
    unfold UndoSystem.redo
    rw [if_pos hguard]

theorem assocGet_assocSet_self {β : Type} (l : List (AnimObjId × β)) (k : AnimObjId)
    (v : β) : assocGet (assocSet l k v) k = some v := by
  induction l with
  | nil => simp [assocGet, assocSet]
  | cons p rest ih =>
    obtain ⟨a, w⟩ := p
    by_cases hak : a = k
    · subst hak
      simp [assocSet, assocGet]
    · simp [assocSet, assocGet, hak, ih]

theorem assocGet_assocSet_ne {β : Type} (l : List (AnimObjId × β)) (k k' : AnimObjId)
    (v : β) (h : k' ≠ k) : assocGet (assocSet l k v) k' = assocGet l k' := by
  induction l with
  | nil => simp [assocGet, assocSet, Ne.symm h]
  | cons p rest ih =>
    obtain ⟨a, w⟩ := p
    by_cases hak : a = k
    · subst hak
      simp [assocSet, assocGet, Ne.symm h]
    · by_cases hak' : a = k'
      · subst hak'
        simp [assocSet, assocGet, hak]
      · simp [assocSet, assocGet, hak, hak', ih]

theorem assocSet_assocSet {β : Type} (l : List (AnimObjId × β)) (k : AnimObjId)
    (a b : β) : assocSet (assocSet l k a) k b = assocSet l k b := by
  induction l with
  | nil => simp [assocSet]
  | cons p rest ih =>
    obtain ⟨x, w⟩ := p
    by_cases hxk : x = k
    · subst hxk
      simp [assocSet]
    · simp [assocSet, hxk, ih]

theorem assocSet_self_of_get {β : Type} (l : List (AnimObjId × β)) (k : AnimObjId)
    (v : β) (h : assocGet l k = some v) : assocSet l k v = l := by
  induction l with
  | nil => simp [assocGet] at h
  | cons p rest ih =>
    obtain ⟨x, w⟩ := p
    by_cases hxk : x = k
    · subst hxk
      simp [assocGet] at h
      simp [assocSet, h]
    · simp [assocGet, hxk] at h
      simp [assocSet, hxk, ih h]

theorem setSelectedProp_setSelectedProp (o : AnimObject) (pt : U8Vec4PropType)
    (a b : U8Vec4) :
    setSelectedProp (setSelectedProp o pt a) pt b = setSelectedProp o pt b := by
  cases pt <;> rfl

theorem modify_execute_fst (am : AnimationManagerData) (objId : AnimObjId)
    (oldVec newVec : U8Vec4) (pt : U8Vec4PropType) :
    ((Command.modifyU8Vec4 objId oldVec newVec pt).execute am).1
      = Command.modifyU8Vec4 objId oldVec newVec pt := by
  cases h : getMutableObject am objId <;> simp [Command.execute, h]

theorem modify_execute_lookup (am : AnimationManagerData) (objId : AnimObjId)
    (oldVec newVec : U8Vec4) (pt : U8Vec4PropType) (o : AnimObject)
    (h : getMutableObject am objId = some o) :
    getMutableObject ((Command.modifyU8Vec4 objId oldVec newVec pt).execute am).2
      objId = some (setSelectedProp o pt newVec) := by
  simp only [Command.execute, h]
  show assocGet (assocSet am.objects objId (setSelectedProp o pt newVec)) objId
    = some (setSelectedProp o pt newVec)
  exact assocGet_assocSet_self am.objects objId (setSelectedProp o pt newVec)

theorem modify_undo_execute_objects (X : AnimationManagerData) (objId : AnimObjId)
    (oldVec newVec : U8Vec4) (pt : U8Vec4PropType)
    (h : ∀ o, getMutableObject X objId = some o → setSelectedProp o pt newVec = o) :
    ((Command.modifyU8Vec4 objId oldVec newVec pt).execute
      ((Command.modifyU8Vec4 objId oldVec newVec pt).undo X)).2.objects
      = X.objects := by
  cases hx : getMutableObject X objId with
  | none =>
    simp only [Command.undo, hx, Command.execute]
  | some o =>
    have hlook : getMutableObject
        (updateObjectState (setStore X objId (setSelectedProp o pt oldVec)) objId)
        objId = some (setSelectedProp o pt oldVec) := by
      show assocGet (assocSet X.objects objId (setSelectedProp o pt oldVec)) objId
        = some (setSelectedProp o pt oldVec)
      exact assocGet_assocSet_self X.objects objId (setSelectedProp o pt oldVec)
    simp only [Command.undo, hx, Command.execute, hlook]
    show assocSet (assocSet X.objects objId (setSelectedProp o pt oldVec)) objId
        (setSelectedProp (setSelectedProp o pt oldVec) pt newVec) = X.objects
    rw [assocSet_assocSet, setSelectedProp_setSelectedProp, h o hx]
    exact assocSet_self_of_get X.objects objId o hx

theorem set_eq_self_of_getD (l : List (Option Command)) (i : Nat) (c : Command)
    (h : l.getD i none = some c) : l.set i (some c) = l := by
  have hg : l.get? i = some (some c) := by
    rcases hgi : l.get? i with _ | v
    · rw [List.getD_eq_getElem?_getD, ← List.get?_eq_getElem?, hgi] at h
      simp at h
    · rw [List.getD_eq_getElem?_getD, ← List.get?_eq_getElem?, hgi] at h
      simp at h
      rw [h]
  exact set_eq_self_of_get l i (some c) hg

theorem modify_redo_undo_cycle (US : UndoSystemData) (t : Nat) (c : Command)
    (hcap : 2 ≤ US.maxHistorySize) (ht : t < US.maxHistorySize)
    (hfst : ∀ a, (c.execute a).1 = c)
    (htail : US.undoCursorTail = (t + 1) % US.maxHistorySize)
    (hne : ¬ US.undoCursorHead = US.undoCursorTail)
    (hguard : (US.undoCursorHead + US.numCommands) % US.maxHistorySize
        = US.undoCursorTail)
    (hslot : US.history.getD t none = some c) :
    UndoSystem.redo (UndoSystem.undo US)
      = { US with
          am := (c.execute (c.undo US.am)).2
          history := US.history.set t (some c) } := by
  have hoff : (if US.undoCursorTail = 0 then US.maxHistorySize - 1
      else US.undoCursorTail - 1) = t := by
    rw [htail]
    exact pred_succ_mod US.maxHistorySize t (by omega) ht
  have hu : UndoSystem.undo US
      = { US with am := c.undo US.am, undoCursorTail := t } := by
    have hstep := undo_of_slot US c hne (by rw [hoff]; exact hslot)
    rw [hoff] at hstep
    exact hstep
  have hne2 : ¬ (US.undoCursorHead + US.numCommands) % US.maxHistorySize = t := by
    rw [hguard, htail]
    exact succ_mod_ne US.maxHistorySize t hcap ht
  have hr := redo_of_slot
    { US with am := c.undo US.am, undoCursorTail := t } c hne2 hslot
  rw [hu, hr]
  dsimp only
  simp only [hfst]
  rw [← htail]

theorem ringRange_self (cap s : Nat) : UndoSystem.ringRange cap s s = [] := by
  unfold UndoSystem.ringRange
  rw [Nat.add_sub_cancel_left, Nat.mod_self, List.range_zero, List.map_nil]

theorem push_explicit_noevict (amx : AnimationManagerData)
    (hist : List (Option Command)) (num tail head cap : Nat) (c : Command)
    (htarget : (head + num) % cap = tail)
    (hev : ¬ (tail + 1) % cap = head) :
    UndoSystem.pushAndExecuteCommand
      { am := amx, history := hist, numCommands := num, undoCursorTail := tail,
        undoCursorHead := head, maxHistorySize := cap } c
      = { am := (c.execute amx).2
          history := hist.set tail (some (c.execute amx).1)
          numCommands := num + 1
          undoCursorTail := (tail + 1) % cap
          undoCursorHead := head
          maxHistorySize := cap } := by
  unfold UndoSystem.pushAndExecuteCommand
  dsimp only
  rw [htarget, ringRange_self]
  simp only [List.foldl_nil, List.length_nil, Nat.sub_zero, if_neg hev]

theorem push_explicit_evict (amx : AnimationManagerData)
    (hist : List (Option Command)) (num tail head cap : Nat) (c : Command)
    (hnum : 1 ≤ num)
    (htarget : (head + num) % cap = tail)
    (hev : (tail + 1) % cap = head) :
    UndoSystem.pushAndExecuteCommand
      { am := amx, history := hist, numCommands := num, undoCursorTail := tail,
        undoCursorHead := head, maxHistorySize := cap } c
      = { am := (c.execute amx).2
          history := (hist.set head none).set tail (some (c.execute amx).1)
          numCommands := num
          undoCursorTail := (tail + 1) % cap
          undoCursorHead := (head + 1) % cap
          maxHistorySize := cap } := by
  unfold UndoSystem.pushAndExecuteCommand
  dsimp only
  rw [htarget, ringRange_self]
  simp only [List.foldl_nil, List.length_nil, Nat.sub_zero, if_pos hev]
  congr 1
  omega

theorem set_append_length {α : Type} (A B : List α) (v : α) :
    (A ++ B).set A.length v = A ++ B.set 0 v := by
  induction A with
  | nil => rfl
  | cons a t ih =>
    simp only [List.cons_append, List.length_cons, List.set]
    rw [show t.append B = t ++ B from rfl, ih]

theorem fill_phase (N : Nat) (hN : 2 ≤ N) (am0 : AnimationManagerData) :
    ∀ pre : List Command, pre.length ≤ N - 1 →
      (∀ c ∈ pre, ∀ a, (c.execute a).1 = c) →
      pre.foldl UndoSystem.pushAndExecuteCommand
        { am := am0, history := List.replicate N none, numCommands := 0,
          undoCursorTail := 0, undoCursorHead := 0, maxHistorySize := N }
      = { am := pre.foldl (fun a c => (c.execute a).2) am0
          history := pre.map some ++ List.replicate (N - pre.length) none
          numCommands := pre.length
          undoCursorTail := pre.length
          undoCursorHead := 0
          maxHistorySize := N } := by
  intro pre
  induction pre using List.reverseRecOn with
  | nil =>
    intro _ _
    simp
  | append_singleton pre c ih =>
    intro hlen hstable
    have hj : pre.length + 1 ≤ N - 1 := by simpa using hlen
    rw [List.foldl_append,
      ih (by omega) (fun c2 h2 a => hstable c2 (by simp [h2]) a)]
    simp only [List.foldl_cons, List.foldl_nil]
    have hstep := push_explicit_noevict
      (pre.foldl (fun a c => (c.execute a).2) am0)
      (pre.map some ++ List.replicate (N - pre.length) none)
      pre.length pre.length 0 N c
      (by rw [Nat.zero_add, Nat.mod_eq_of_lt (by omega)])
      (by rw [Nat.mod_eq_of_lt (by omega)]; omega)
    rw [hstep]
    have hfst : (c.execute (pre.foldl (fun a c => (c.execute a).2) am0)).1 = c :=
      hstable c (by simp) _
    have hsa := set_append_length (List.map some pre)
      (List.replicate (N - pre.length) none) (some c)
    rw [List.length_map] at hsa
    have hrep : N - pre.length = (N - (pre.length + 1)) + 1 := by omega
    have hhist : (List.map some pre ++ List.replicate (N - pre.length) none).set
        pre.length (some c)
        = List.map some (pre ++ [c])
          ++ List.replicate (N - (pre ++ [c]).length) none := by
      rw [hsa, hrep, List.replicate_succ]
      simp
    have htl : (pre.length + 1) % N = (pre ++ [c]).length := by
      rw [Nat.mod_eq_of_lt (by omega)]
      simp
    simp only [UndoSystemData.mk.injEq]
    refine ⟨by simp, ?_, by simp, htl, trivial, trivial⟩
    rw [hfst, hhist]

theorem getMutableObject_updateObjectState (am : AnimationManagerData)
    (i j : AnimObjId) :
    getMutableObject (updateObjectState am i) j = getMutableObject am j := rfl

theorem getD_map_some (l : List Command) (i : Nat) (d : Command)
    (h : i < l.length) : (l.map some).getD i none = some (l.getD i d) := by
  induction l generalizing i with
  | nil => cases h
  | cons a t ih =>
    cases i with
    | zero => rfl
    | succ n =>
      simp only [List.map_cons, List.getD_cons_succ]
      exact ih n (by simpa using h)

theorem getD_take (cs : List Command) (m i : Nat) (d : Command) (h : i < m) :
    (cs.take m).getD i d = cs.getD i d := by
  induction cs generalizing m i with
  | nil => simp
  | cons a t ih =>
    cases m with
    | zero => cases h
    | succ m2 =>
      cases i with
      | zero => rfl
      | succ n =>
        simp only [List.take_succ_cons, List.getD_cons_succ]
        exact ih m2 n (by omega)

theorem undo_iterate_history (k : Nat) :
    ∀ us : UndoSystemData, (UndoSystem.undo^[k] us).history = us.history := by
  induction k with
  | zero => intro us; rfl
  | succ n ih =>
    intro us
    rw [Function.iterate_succ_apply, ih (UndoSystem.undo us),
      (undo_bookkeeping us).1]

theorem bfsAux_nodup (am : AnimationManagerData) :
    ∀ (fuel : Nat) (q visited : List AnimObjId),
      (bfsAux am fuel q visited).Nodup ∧
      ∀ x ∈ bfsAux am fuel q visited, x ∉ visited := by
  intro fuel
  induction fuel with
  | zero =>
    intro q visited
    simp [bfsAux]
  | succ n ih =>
    intro q visited
    cases q with
    | nil => simp [bfsAux]
    | cons a qs =>
      by_cases hmem : a ∈ visited
      · simp only [bfsAux, if_pos hmem]
        exact ih qs visited
      · simp only [bfsAux, if_neg hmem]
        obtain ⟨hnd, hnin⟩ := ih (qs ++ childrenOf am a) (a :: visited)
        refine ⟨List.nodup_cons.2 ⟨fun hc =>
          (hnin a hc) (List.mem_cons_self a visited), hnd⟩, ?_⟩
        intro x hx
        rcases List.mem_cons.1 hx with rfl | hx2
        · exact hmem
        · intro hxv
          exact (hnin x hx2) (List.mem_cons_of_mem a hxv)

theorem descendants_nodup (am : AnimationManagerData) (id : AnimObjId) :
    (descendantsBreadthFirst am id).Nodup :=
  (bfsAux_nodup am _ _ _).1

theorem undoChildStep_notified (pt : U8Vec4PropType)
    (oldProps : List (AnimObjId × U8Vec4)) (am : AnimationManagerData)
    (a : AnimObjId) : (undoChildStep pt oldProps am a).notified = am.notified := by
  unfold undoChildStep
  cases getMutableObject am a with
  | none => rfl
  | some childObj =>
    cases assocGet oldProps a with
    | none => rfl
    | some v => rfl

theorem undoChildStep_lookup_ne (pt : U8Vec4PropType)
    (oldProps : List (AnimObjId × U8Vec4)) (am : AnimationManagerData)
    (a id : AnimObjId) (h : id ≠ a) :
    getMutableObject (undoChildStep pt oldProps am a) id
      = getMutableObject am id := by
  unfold undoChildStep
  cases getMutableObject am a with
  | none => rfl
  | some childObj =>
    cases assocGet oldProps a with
    | none => rfl
    | some v =>
      show assocGet (assocSet am.objects a (setSelectedProp childObj pt v)) id
        = assocGet am.objects id
      exact assocGet_assocSet_ne am.objects a id _ h

theorem undoChildStep_lookup_self (pt : U8Vec4PropType)
    (oldProps : List (AnimObjId × U8Vec4)) (am : AnimationManagerData)
    (a : AnimObjId) (o : AnimObject) (v : U8Vec4)
    (ho : getMutableObject am a = some o) (hv : assocGet oldProps a = some v) :
    getMutableObject (undoChildStep pt oldProps am a) a
      = some (setSelectedProp o pt v) := by
  unfold undoChildStep
  rw [ho, hv]
  show assocGet (assocSet am.objects a (setSelectedProp o pt v)) a
    = some (setSelectedProp o pt v)
  exact assocGet_assocSet_self am.objects a (setSelectedProp o pt v)

theorem undoChildStep_skip (pt : U8Vec4PropType)
    (oldProps : List (AnimObjId × U8Vec4)) (am : AnimationManagerData)
    (a : AnimObjId)
    (h : assocGet oldProps a = none ∨ getMutableObject am a = none) :
    undoChildStep pt oldProps am a = am := by
  unfold undoChildStep
  rcases h with hv | ho
  · cases hg : getMutableObject am a with
    | none => rfl
    | some childObj => rw [hv]
  · rw [ho]

theorem undo_fold_objects (pt : U8Vec4PropType)
    (oldProps : List (AnimObjId × U8Vec4)) (ds : List AnimObjId) :
    ∀ am : AnimationManagerData, ds.Nodup →
      ((∀ id ∈ ds, ∀ o v, getMutableObject am id = some o →
          assocGet oldProps id = some v →
          getMutableObject (ds.foldl (undoChildStep pt oldProps) am) id
            = some (setSelectedProp o pt v)) ∧
       (∀ id, id ∉ ds ∨ assocGet oldProps id = none ∨
          getMutableObject am id = none →
          getMutableObject (ds.foldl (undoChildStep pt oldProps) am) id
            = getMutableObject am id) ∧
       (ds.foldl (undoChildStep pt oldProps) am).notified = am.notified) := by
  induction ds with
  | nil =>
    intro am hnd
    exact ⟨fun id hid => absurd hid (List.not_mem_nil id), fun id h => rfl, rfl⟩
  | cons a ds ih =>
    intro am hnd
    obtain ⟨hna, hndtl⟩ := List.nodup_cons.1 hnd
    obtain ⟨ih1, ih2, ih3⟩ := ih (undoChildStep pt oldProps am a) hndtl
    rw [List.foldl_cons]
    refine ⟨?_, ?_, ?_⟩
    · intro id hid o v ho hv
      rcases List.mem_cons.1 hid with rfl | hid2
      · rw [ih2 id (Or.inl hna)]
        exact undoChildStep_lookup_self pt oldProps am id o v ho hv
      · have hne : id ≠ a := fun hcon => hna (hcon ▸ hid2)
        refine ih1 id hid2 o v ?_ hv
        rw [undoChildStep_lookup_ne pt oldProps am a id hne]
        exact ho
    · intro id hdisj
      rcases hdisj with hnin | hv | ho
      · have hne : id ≠ a := fun hcon => hnin (hcon ▸ List.mem_cons_self a ds)
        have hnin2 : id ∉ ds := fun hcon => hnin (List.mem_cons_of_mem a hcon)
        rw [ih2 id (Or.inl hnin2)]
        exact undoChildStep_lookup_ne pt oldProps am a id hne
      · rw [ih2 id (Or.inr (Or.inl hv))]
        rcases eq_or_ne id a with rfl | hne
        · rw [undoChildStep_skip pt oldProps am id (Or.inl hv)]
        · exact undoChildStep_lookup_ne pt oldProps am a id hne
      · rcases eq_or_ne id a with rfl | hne
        · rw [undoChildStep_skip pt oldProps am id (Or.inr ho)]
          rw [undoChildStep_skip pt oldProps am id (Or.inr ho)] at ih2
          exact ih2 id (Or.inr (Or.inr ho))
        · have hstep := undoChildStep_lookup_ne pt oldProps am a id hne
          rw [ih2 id (Or.inr (Or.inr (by rw [hstep]; exact ho)))]
          exact hstep
    · rw [ih3]
      exact undoChildStep_notified pt oldProps am a

theorem overflow_final (N : Nat) (hN : 2 ≤ N) (am0 : AnimationManagerData)
    (cs : List Command) (hlen : cs.length = N + 1)
    (hstable : ∀ c ∈ cs, ∀ a, (c.execute a).1 = c) :
    (cs.foldl UndoSystem.pushAndExecuteCommand
        { am := am0, history := List.replicate N none, numCommands := 0,
          undoCursorTail := 0, undoCursorHead := 0,
          maxHistorySize := N }).numCommands = N - 1 ∧
    (cs.foldl UndoSystem.pushAndExecuteCommand
        { am := am0, history := List.replicate N none, numCommands := 0,
          undoCursorTail := 0, undoCursorHead := 0,
          maxHistorySize := N }).undoCursorTail = 1 ∧
    (cs.foldl UndoSystem.pushAndExecuteCommand
        { am := am0, history := List.replicate N none, numCommands := 0,
          undoCursorTail := 0, undoCursorHead := 0,
          maxHistorySize := N }).undoCursorHead = 2 % N ∧
    (cs.foldl UndoSystem.pushAndExecuteCommand
        { am := am0, history := List.replicate N none, numCommands := 0,
          undoCursorTail := 0, undoCursorHead := 0,
          maxHistorySize := N }).maxHistorySize = N ∧
    (cs.foldl UndoSystem.pushAndExecuteCommand
        { am := am0, history := List.replicate N none, numCommands := 0,
          undoCursorTail := 0, undoCursorHead := 0,
          maxHistorySize := N }).history.length = N ∧
    (∀ i, i < N →
      (cs.foldl UndoSystem.pushAndExecuteCommand
        { am := am0, history := List.replicate N none, numCommands := 0,
          undoCursorTail := 0, undoCursorHead := 0,
          maxHistorySize := N }).history.getD i none
        = if i = 0 then some (cs.getD N defaultCommand)
          else if i = 1 then none
          else some (cs.getD i defaultCommand)) := by
  have hN1lt : N - 1 < cs.length := by omega
  have hNlt : N < cs.length := by omega
  have hdrop : cs.drop (N - 1)
      = [cs.getD (N - 1) defaultCommand, cs.getD N defaultCommand] := by
    apply List.ext_getElem
    · rw [List.length_drop, hlen]
      simp
      omega
    · intro i h1 h2
      rw [List.length_drop, hlen] at h1
      have h2b : i < 2 := by omega
      rcases i with _ | _ | i
      · rw [List.getElem_drop]
        rw [List.getD_eq_getElem cs defaultCommand hN1lt]
        simp
      · rw [List.getElem_drop]
        rw [List.getD_eq_getElem cs defaultCommand hNlt]
        have : N - 1 + 1 = N := by omega
        simp [this]
      · omega
  have hsplit : cs = (cs.take (N - 1) ++ [cs.getD (N - 1) defaultCommand])
      ++ [cs.getD N defaultCommand] := by
    conv_lhs => rw [← List.take_append_drop (N - 1) cs]
    rw [hdrop, List.append_assoc]
    rfl
  have htake_len : (cs.take (N - 1)).length = N - 1 := by
    rw [List.length_take, hlen]
    omega
  have htake_stable : ∀ c ∈ cs.take (N - 1), ∀ a, (c.execute a).1 = c :=
    fun c hc a => hstable c (List.mem_of_mem_take hc) a
  have hmemN1 : cs.getD (N - 1) defaultCommand ∈ cs := by
    rw [List.getD_eq_getElem cs defaultCommand hN1lt]
    exact List.getElem_mem hN1lt
  have hmemN : cs.getD N defaultCommand ∈ cs := by
    rw [List.getD_eq_getElem cs defaultCommand hNlt]
    exact List.getElem_mem hNlt
  have hfill := fill_phase N hN am0 (cs.take (N - 1))
    (by rw [htake_len]) htake_stable
  have hF : cs.foldl UndoSystem.pushAndExecuteCommand
        { am := am0, history := List.replicate N none, numCommands := 0,
          undoCursorTail := 0, undoCursorHead := 0, maxHistorySize := N }
      = { am := ((cs.getD N defaultCommand).execute
            (((cs.getD (N - 1) defaultCommand).execute
              ((cs.take (N - 1)).foldl (fun a c => (c.execute a).2) am0)).2)).2
          history := (((((cs.take (N - 1)).map some ++ [none]).set 0 none).set
            (N - 1) (some (cs.getD (N - 1) defaultCommand))).set 1 none).set 0
            (some (cs.getD N defaultCommand))
          numCommands := N - 1
          undoCursorTail := 1
          undoCursorHead := 2 % N
          maxHistorySize := N } := by
    conv_lhs => rw [hsplit]
    rw [List.foldl_append, List.foldl_append, hfill]
    simp only [List.foldl_cons, List.foldl_nil]
    rw [htake_len]
    rw [show N - (N - 1) = 1 from by omega, List.replicate_one]
    rw [push_explicit_evict _ _ (N - 1) (N - 1) 0 N _ (by omega)
      (by rw [Nat.zero_add, Nat.mod_eq_of_lt (by omega)])
      (by rw [show N - 1 + 1 = N from by omega, Nat.mod_self])]
    rw [hstable (cs.getD (N - 1) defaultCommand) hmemN1]
    rw [show (N - 1 + 1) % N = 0 from by
      rw [show N - 1 + 1 = N from by omega, Nat.mod_self]]
    rw [show (0 + 1) % N = 1 from by
      rw [Nat.zero_add, Nat.mod_eq_of_lt (by omega)]]
    rw [push_explicit_evict _ _ (N - 1) 0 1 N _ (by omega)
      (by rw [show 1 + (N - 1) = N from by omega, Nat.mod_self])
      (by rw [Nat.zero_add, Nat.mod_eq_of_lt (by omega)])]
    rw [hstable (cs.getD N defaultCommand) hmemN]
    rw [show (0 + 1) % N = 1 from by
      rw [Nat.zero_add, Nat.mod_eq_of_lt (by omega)]]
  have hbaselen : ((cs.take (N - 1)).map some ++ [none]).length = N := by
    rw [List.length_append, List.length_map, htake_len]
    simp
    omega
  have hlen2 : ((((((cs.take (N - 1)).map some ++ [none]).set 0 none).set
      (N - 1) (some (cs.getD (N - 1) defaultCommand))).set 1 none).set 0
      (some (cs.getD N defaultCommand))).length = N := by
    simp only [List.length_set]
    exact hbaselen
  rw [hF]
  refine ⟨rfl, rfl, rfl, rfl, hlen2, ?_⟩
  intro i hi
  show ((((((cs.take (N - 1)).map some ++ [none]).set 0 none).set
      (N - 1) (some (cs.getD (N - 1) defaultCommand))).set 1 none).set 0
      (some (cs.getD N defaultCommand))).getD i none = _
  by_cases hi0 : i = 0
  · subst hi0
    rw [getD_set_self_lt _ 0 _ none (by
      simp only [List.length_set]
      omega)]
    simp
  · rw [getD_set_ne _ 0 i _ none (fun hcon => hi0 hcon.symm)]
    by_cases hi1 : i = 1
    · subst hi1
      rw [getD_setNone_self]
      rw [if_neg hi0, if_pos rfl]
    · rw [getD_set_ne _ 1 i _ none (fun hcon => hi1 hcon.symm)]
      rw [if_neg hi0, if_neg hi1]
      by_cases hiN : i = N - 1
      · subst hiN
        rw [getD_set_self_lt _ (N - 1) _ none (by
          simp only [List.length_set]
          omega)]
      · rw [getD_set_ne _ (N - 1) i _ none (fun hcon => hiN hcon.symm)]
        rw [getD_set_ne _ 0 i _ none (fun hcon => hi0 hcon.symm)]
        have hileft : i < ((cs.take (N - 1)).map some).length := by
          rw [List.length_map, htake_len]
          omega
        rw [List.getD_append _ _ none i hileft]
        rw [getD_map_some (cs.take (N - 1)) i defaultCommand (by
          rw [htake_len]
          omega)]
        rw [getD_take cs (N - 1) i defaultCommand (by omega)]

/-- C1 (amended): filling a log initialized with capacity N (N > 1) by N+1
sequential record-and-apply calls with no intervening undo retains exactly
the N-1 most recently recorded commands — the ring buffer always keeps one
slot logically empty — and the 1st and 2nd recorded commands have been
evicted: no slot reachable by any number of subsequent undo calls holds
them (undo never touches the slot array, and every retained command is one
of the last N-1 recorded). -/
theorem C1_amended_retains_capacity_minus_one (N : Nat)
    (am0 : AnimationManagerData) (cs : List Command) (us0 : UndoSystemData)
    (hN : 2 ≤ N) (hlen : cs.length = N + 1) (hnd : cs.Nodup)
    (hstable : ∀ c ∈ cs, ∀ a, (c.execute a).1 = c)
    (hinit : UndoSystem.init am0 (N : Int) = .ok us0) :
    (cs.foldl UndoSystem.pushAndExecuteCommand us0).numCommands = N - 1 ∧
    liveCommands (cs.foldl UndoSystem.pushAndExecuteCommand us0)
      = (cs.drop 2).map some ∧
    (∀ k : Nat, ∀ c : Command,
      some c ∈ (UndoSystem.undo^[k]
        (cs.foldl UndoSystem.pushAndExecuteCommand us0)).history →
      c ∈ cs.drop 2) ∧
    (∀ k : Nat, ∀ c : Command,
      cs.getD 0 defaultCommand = c ∨ cs.getD 1 defaultCommand = c →
      some c ∉ (UndoSystem.undo^[k]
        (cs.foldl UndoSystem.pushAndExecuteCommand us0)).history) := by
  unfold UndoSystem.init at hinit
  rw [if_pos (show (1 : Int) < (N : Int) by exact_mod_cast (by omega : 1 < N))]
    at hinit
  injection hinit with hrec
  subst hrec
  simp only [Int.toNat_natCast]
  obtain ⟨h1, h2, h3, h4, h5, h6⟩ := overflow_final N hN am0 cs hlen hstable
  have hmem_drop : ∀ k : Nat, ∀ c : Command,
      some c ∈ (UndoSystem.undo^[k]
        (cs.foldl UndoSystem.pushAndExecuteCommand
          { am := am0, history := List.replicate N none, numCommands := 0,
            undoCursorTail := 0, undoCursorHead := 0,
            maxHistorySize := N })).history →
      c ∈ cs.drop 2 := by
    intro k c hmem
    rw [undo_iterate_history k _] at hmem
    obtain ⟨i, hil, hieq⟩ := List.mem_iff_getElem.1 hmem
    have hilN : i < N := by
      rw [h5] at hil
      exact hil
    have hgd : (cs.foldl UndoSystem.pushAndExecuteCommand
        { am := am0, history := List.replicate N none, numCommands := 0,
          undoCursorTail := 0, undoCursorHead := 0,
          maxHistorySize := N }).history.getD i none = some c := by
      rw [List.getD_eq_getElem _ none hil, hieq]
    rw [h6 i hilN] at hgd
    by_cases hi0 : i = 0
    · rw [if_pos hi0] at hgd
      injection hgd with hc
      rw [List.mem_iff_getElem]
      refine ⟨N - 2, by simp [hlen]; omega, ?_⟩
      rw [List.getElem_drop]
      rw [← hc, List.getD_eq_getElem cs defaultCommand (by omega)]
      simp only [show 2 + (N - 2) = N from by omega]
    · rw [if_neg hi0] at hgd
      by_cases hi1 : i = 1
      · rw [if_pos hi1] at hgd
        cases hgd
      · rw [if_neg hi1] at hgd
        injection hgd with hc
        rw [List.mem_iff_getElem]
        refine ⟨i - 2, by simp [hlen]; omega, ?_⟩
        rw [List.getElem_drop]
        rw [← hc, List.getD_eq_getElem cs defaultCommand (by omega)]
        simp only [show 2 + (i - 2) = i from by omega]
  refine ⟨h1, ?_, hmem_drop, ?_⟩
  · apply List.ext_getElem
    · simp only [liveCommands, liveWindow, List.length_map, List.length_range,
        List.length_drop, h1, hlen]
      omega
    · intro k hk1 hk2
      have hkN : k < N - 1 := by
        simpa only [liveCommands, liveWindow, List.length_map,
          List.length_range, h1] using hk1
      have hL : (liveCommands (cs.foldl UndoSystem.pushAndExecuteCommand
          { am := am0, history := List.replicate N none, numCommands := 0,
            undoCursorTail := 0, undoCursorHead := 0,
            maxHistorySize := N }))[k]
          = (cs.foldl UndoSystem.pushAndExecuteCommand
          { am := am0, history := List.replicate N none, numCommands := 0,
            undoCursorTail := 0, undoCursorHead := 0,
            maxHistorySize := N }).history.getD
            (((cs.foldl UndoSystem.pushAndExecuteCommand
          { am := am0, history := List.replicate N none, numCommands := 0,
            undoCursorTail := 0, undoCursorHead := 0,
            maxHistorySize := N }).undoCursorHead + k)
              % (cs.foldl UndoSystem.pushAndExecuteCommand
          { am := am0, history := List.replicate N none, numCommands := 0,
            undoCursorTail := 0, undoCursorHead := 0,
            maxHistorySize := N }).maxHistorySize) none := by
        simp [liveCommands, liveWindow]
      rw [hL, h3, h4, Nat.mod_add_mod]
      have hR : ((cs.drop 2).map some)[k]
          = some (cs.getD (2 + k) defaultCommand) := by
        have hk3 : k < (cs.drop 2).length := by
          simp [hlen]
          omega
        rw [List.getElem_map, List.getElem_drop,
          List.getD_eq_getElem cs defaultCommand (by simp [hlen] at hk3; omega)]
      rw [hR]
      rcases lt_or_ge (2 + k) N with hlt | hge
      · rw [Nat.mod_eq_of_lt hlt, h6 (2 + k) hlt, if_neg (by omega),
          if_neg (by omega)]
      · have h2k : 2 + k = N := by omega
        rw [h2k, Nat.mod_self, h6 0 (by omega), if_pos rfl]
  · intro k c hor hmem
    have hcin := hmem_drop k c hmem
    obtain ⟨j, hjl, hjeq⟩ := List.mem_iff_getElem.1 hcin
    have hjlen : j < cs.length - 2 := by
      simpa using hjl
    rw [List.getElem_drop] at hjeq
    have hb2 : 2 + j < cs.length := by omega
    rcases hor with h0 | h1
    · rw [List.getD_eq_getElem cs defaultCommand (by omega)] at h0
      have hb0 : 0 < cs.length := by omega
      have heq2 : cs[0] = cs[2 + j] := h0.trans hjeq.symm
      have := (List.Nodup.getElem_inj_iff hnd).1 heq2
      omega
    · rw [List.getD_eq_getElem cs defaultCommand (by omega)] at h1
      have hb1 : 1 < cs.length := by omega
      have heq2 : cs[1] = cs[2 + j] := h1.trans hjeq.symm
      have := (List.Nodup.getElem_inj_iff hnd).1 heq2
      omega

/-- Witness for the amended C1 at capacity 2 with three distinct concrete
commands. -/
theorem C1_amended_retains_capacity_minus_one_witness :
    (([cmdA, cmdB, cmdC] : List Command).foldl
        UndoSystem.pushAndExecuteCommand usCap2).numCommands = 2 - 1 ∧
    liveCommands (([cmdA, cmdB, cmdC] : List Command).foldl
        UndoSystem.pushAndExecuteCommand usCap2)
      = (([cmdA, cmdB, cmdC] : List Command).drop 2).map some ∧
    (∀ k : Nat, ∀ c : Command,
      some c ∈ (UndoSystem.undo^[k] (([cmdA, cmdB, cmdC] : List Command).foldl
        UndoSystem.pushAndExecuteCommand usCap2)).history →
      c ∈ ([cmdA, cmdB, cmdC] : List Command).drop 2) ∧
    (∀ k : Nat, ∀ c : Command,
      ([cmdA, cmdB, cmdC] : List Command).getD 0 defaultCommand = c ∨
        ([cmdA, cmdB, cmdC] : List Command).getD 1 defaultCommand = c →
      some c ∉ (UndoSystem.undo^[k] (([cmdA, cmdB, cmdC] : List Command).foldl
        UndoSystem.pushAndExecuteCommand usCap2)).history) :=
  C1_amended_retains_capacity_minus_one 2 amFix [cmdA, cmdB, cmdC] usCap2
    (by decide) (by decide) (by decide)
    (by
      intro c hc a
      rcases List.mem_cons.1 hc with h | hc2
      · subst h
        exact modify_execute_fst a 5 ⟨255, 0, 0, 255⟩ ⟨0, 0, 255, 255⟩ .FillColor
      rcases List.mem_cons.1 hc2 with h | hc3
      · subst h
        exact modify_execute_fst a 5 ⟨0, 0, 255, 255⟩ ⟨0, 255, 0, 255⟩ .FillColor
      rcases List.mem_cons.1 hc3 with h | hc4
      · subst h
        exact modify_execute_fst a 5 ⟨0, 255, 0, 255⟩ ⟨255, 255, 0, 255⟩
          .FillColor
      · cases hc4)
    rfl

/-- C3: undoing an apply-to-children command whose target is present
restores, for every current descendant that still exists and has an entry
in the snapshot mapping, the recorded value into its selected property, and
notifies the store (for the target); ids outside the current descendant
traversal (removed from the graph since the snapshot), ids without a
snapshot entry (added after the snapshot), and ids gone from the store are
left untouched. -/
theorem C3_apply_children_undo (am : AnimationManagerData)
    (targetId : AnimObjId) (pt : U8Vec4PropType)
    (oldProps : List (AnimObjId × U8Vec4)) (tobj : AnimObject)
    (htar : getMutableObject am targetId = some tobj) :
    (∀ id ∈ descendantsBreadthFirst am targetId, ∀ o v,
        getMutableObject am id = some o → assocGet oldProps id = some v →
        getMutableObject
          ((Command.applyU8Vec4ToChildren targetId pt oldProps).undo am) id
          = some (setSelectedProp o pt v)) ∧
    (∀ id, id ∉ descendantsBreadthFirst am targetId ∨
        assocGet oldProps id = none ∨ getMutableObject am id = none →
        getMutableObject
          ((Command.applyU8Vec4ToChildren targetId pt oldProps).undo am) id
          = getMutableObject am id) ∧
    ((Command.applyU8Vec4ToChildren targetId pt oldProps).undo am).notified
      = am.notified ++ [targetId] := by
  have hundo : (Command.applyU8Vec4ToChildren targetId pt oldProps).undo am
      = updateObjectState
          ((descendantsBreadthFirst am targetId).foldl
            (undoChildStep pt oldProps) am) targetId := by
    simp only [Command.undo, htar]
  obtain ⟨h1, h2, h3⟩ := undo_fold_objects pt oldProps
    (descendantsBreadthFirst am targetId) am (descendants_nodup am targetId)
  rw [hundo]
  refine ⟨?_, ?_, ?_⟩
  · intro id hid o v ho hv
    rw [getMutableObject_updateObjectState]
    exact h1 id hid o v ho hv
  · intro id hdisj
    rw [getMutableObject_updateObjectState]
    exact h2 id hdisj
  · show ((descendantsBreadthFirst am targetId).foldl
        (undoChildStep pt oldProps) am).notified ++ [targetId]
      = am.notified ++ [targetId]
    rw [h3]

/-- Witness for C3 on the concrete two-object store, restoring the stroke
color of descendant 101 from a snapshot. -/
theorem C3_apply_children_undo_witness :
    (∀ id ∈ descendantsBreadthFirst amTree 100, ∀ o v,
        getMutableObject amTree id = some o →
        assocGet [(101, (⟨7, 7, 7, 7⟩ : U8Vec4))] id = some v →
        getMutableObject
          ((Command.applyU8Vec4ToChildren 100 .StrokeColor
            [(101, ⟨7, 7, 7, 7⟩)]).undo amTree) id
          = some (setSelectedProp o .StrokeColor v)) ∧
    (∀ id, id ∉ descendantsBreadthFirst amTree 100 ∨
        assocGet [(101, (⟨7, 7, 7, 7⟩ : U8Vec4))] id = none ∨
        getMutableObject amTree id = none →
        getMutableObject
          ((Command.applyU8Vec4ToChildren 100 .StrokeColor
            [(101, ⟨7, 7, 7, 7⟩)]).undo amTree) id
          = getMutableObject amTree id) ∧
    ((Command.applyU8Vec4ToChildren 100 .StrokeColor
        [(101, ⟨7, 7, 7, 7⟩)]).undo amTree).notified
      = amTree.notified ++ [100] :=
  C3_apply_children_undo amTree 100 .StrokeColor [(101, ⟨7, 7, 7, 7⟩)]
    { _fillColorStart := ⟨1, 1, 1, 1⟩
      _strokeColorStart := ⟨9, 9, 9, 9⟩
      children := [101] }
    (by decide)

/-- C4: for any ModifyU8Vec4 command, with either property selector,
recorded and applied on a well-formed log, then undone, then redone: the
observable state (the object table, the slots, and all bookkeeping — the
notification trace excluded) equals the state right after the forward
application; the target's selected property holds the forward value; and
performing undo-then-redo once more changes nothing (undo-redo is
idempotent). -/
theorem C4_modify_apply_undo_redo (us : UndoSystemData) (objId : AnimObjId)
    (oldVec newVec : U8Vec4) (pt : U8Vec4PropType) (hwf : WF us) :
    obs (UndoSystem.redo (UndoSystem.undo
        (UndoSystem.pushAndExecuteCommand us
          (Command.modifyU8Vec4 objId oldVec newVec pt))))
      = obs (UndoSystem.pushAndExecuteCommand us
          (Command.modifyU8Vec4 objId oldVec newVec pt)) ∧
    (∀ o, getMutableObject us.am objId = some o →
      getMutableObject (UndoSystem.redo (UndoSystem.undo
        (UndoSystem.pushAndExecuteCommand us
          (Command.modifyU8Vec4 objId oldVec newVec pt)))).am objId
        = some (setSelectedProp o pt newVec)) ∧
    obs (UndoSystem.redo (UndoSystem.undo (UndoSystem.redo (UndoSystem.undo
        (UndoSystem.pushAndExecuteCommand us
          (Command.modifyU8Vec4 objId oldVec newVec pt))))))
      = obs (UndoSystem.redo (UndoSystem.undo
        (UndoSystem.pushAndExecuteCommand us
          (Command.modifyU8Vec4 objId oldVec newVec pt)))) := by
  have hwf2 := hwf
  obtain ⟨hcap, hh, ht, hcnt, hlen, d, hd, htl⟩ := hwf2
  have hfst : ∀ a, ((Command.modifyU8Vec4 objId oldVec newVec pt).execute a).1
      = Command.modifyU8Vec4 objId oldVec newVec pt :=
    fun a => modify_execute_fst a objId oldVec newVec pt
  obtain ⟨hM, hT, hAm, hLen1, hSlot, hneq, hHC, hacc, hwf1⟩ :=
    push_state us (Command.modifyU8Vec4 objId oldVec newVec pt) hwf
  rw [hfst us.am] at hSlot
  set US1 := UndoSystem.pushAndExecuteCommand us
    (Command.modifyU8Vec4 objId oldVec newVec pt) with hUS1
  have hlookUS1 : ∀ o, getMutableObject us.am objId = some o →
      getMutableObject US1.am objId = some (setSelectedProp o pt newVec) := by
    intro o ho
    rw [hAm]
    exact modify_execute_lookup us.am objId oldVec newVec pt o ho
  have hstable1 : ∀ o', getMutableObject US1.am objId = some o' →
      setSelectedProp o' pt newVec = o' := by
    intro o' ho'
    cases hx : getMutableObject us.am objId with
    | none =>
      rw [hAm] at ho'
      simp only [Command.execute, hx] at ho'
      cases ho'
    | some o =>
      rw [hlookUS1 o hx] at ho'
      injection ho' with ho''
      rw [← ho'']
      exact setSelectedProp_setSelectedProp o pt newVec newVec
  have hcyc1 := modify_redo_undo_cycle US1 us.undoCursorTail
    (Command.modifyU8Vec4 objId oldVec newVec pt)
    (by rw [hM]; exact hcap) (by rw [hM]; exact ht) hfst
    (by rw [hT, hM]) hneq (by rw [hM]; exact hHC) hSlot
  have hobjeq1 : ((Command.modifyU8Vec4 objId oldVec newVec pt).execute
      ((Command.modifyU8Vec4 objId oldVec newVec pt).undo US1.am)).2.objects
      = US1.am.objects :=
    modify_undo_execute_objects US1.am objId oldVec newVec pt hstable1
  have hhisteq1 : US1.history.set us.undoCursorTail
      (some (Command.modifyU8Vec4 objId oldVec newVec pt)) = US1.history :=
    set_eq_self_of_getD US1.history us.undoCursorTail
      (Command.modifyU8Vec4 objId oldVec newVec pt) hSlot
  refine ⟨?_, ?_, ?_⟩
  · rw [hcyc1]
    show (_, _, _, _, _, _) = (_, _, _, _, _, _)
    dsimp only
    rw [hobjeq1, hhisteq1]
  · intro o ho
    rw [hcyc1]
    show assocGet ((Command.modifyU8Vec4 objId oldVec newVec pt).execute
      ((Command.modifyU8Vec4 objId oldVec newVec pt).undo US1.am)).2.objects objId
      = some (setSelectedProp o pt newVec)
    rw [hobjeq1]
    exact hlookUS1 o ho
  · rw [hcyc1]
    have hslot3 : (({ US1 with
        am := ((Command.modifyU8Vec4 objId oldVec newVec pt).execute
          ((Command.modifyU8Vec4 objId oldVec newVec pt).undo US1.am)).2
        history := US1.history.set us.undoCursorTail
          (some (Command.modifyU8Vec4 objId oldVec newVec pt)) } :
        UndoSystemData)).history.getD us.undoCursorTail none
        = some (Command.modifyU8Vec4 objId oldVec newVec pt) :=
      getD_set_self_lt US1.history us.undoCursorTail
        (some (Command.modifyU8Vec4 objId oldVec newVec pt)) none
        (by rw [hLen1]; exact ht)
    have hcyc2 := modify_redo_undo_cycle
      { US1 with
        am := ((Command.modifyU8Vec4 objId oldVec newVec pt).execute
          ((Command.modifyU8Vec4 objId oldVec newVec pt).undo US1.am)).2
        history := US1.history.set us.undoCursorTail
          (some (Command.modifyU8Vec4 objId oldVec newVec pt)) }
      us.undoCursorTail (Command.modifyU8Vec4 objId oldVec newVec pt)
      (by rw [hM] at *; exact hcap) (by rw [hM] at *; exact ht) hfst
      (by show US1.undoCursorTail = _; rw [hT, hM]) hneq
      (by show (US1.undoCursorHead + US1.numCommands) % US1.maxHistorySize
            = US1.undoCursorTail
          rw [hM]
          exact hHC)
      hslot3
    rw [hcyc2]
    have hstable3 : ∀ o', getMutableObject ((Command.modifyU8Vec4 objId oldVec
        newVec pt).execute ((Command.modifyU8Vec4 objId oldVec newVec pt).undo
          US1.am)).2 objId = some o' → setSelectedProp o' pt newVec = o' := by
      intro o' ho'
      apply hstable1
      show assocGet US1.am.objects objId = some o'
      rw [← hobjeq1]
      exact ho'
    have hobjeq3 : ((Command.modifyU8Vec4 objId oldVec newVec pt).execute
        ((Command.modifyU8Vec4 objId oldVec newVec pt).undo
          ((Command.modifyU8Vec4 objId oldVec newVec pt).execute
            ((Command.modifyU8Vec4 objId oldVec newVec pt).undo
              US1.am)).2)).2.objects
        = ((Command.modifyU8Vec4 objId oldVec newVec pt).execute
            ((Command.modifyU8Vec4 objId oldVec newVec pt).undo
              US1.am)).2.objects :=
      modify_undo_execute_objects _ objId oldVec newVec pt hstable3
    show (_, _, _, _, _, _) = (_, _, _, _, _, _)
    dsimp only
    rw [hobjeq3, List.set_set]

/-- Witness for C4 on the freshly initialized capacity-2 log, modifying the
fill color of object 5. -/
theorem C4_modify_apply_undo_redo_witness :
    obs (UndoSystem.redo (UndoSystem.undo
        (UndoSystem.pushAndExecuteCommand usCap2
          (Command.modifyU8Vec4 5 ⟨255, 0, 0, 255⟩ ⟨0, 0, 255, 255⟩ .FillColor))))
      = obs (UndoSystem.pushAndExecuteCommand usCap2
          (Command.modifyU8Vec4 5 ⟨255, 0, 0, 255⟩ ⟨0, 0, 255, 255⟩ .FillColor)) ∧
    (∀ o, getMutableObject usCap2.am 5 = some o →
      getMutableObject (UndoSystem.redo (UndoSystem.undo
        (UndoSystem.pushAndExecuteCommand usCap2
          (Command.modifyU8Vec4 5 ⟨255, 0, 0, 255⟩ ⟨0, 0, 255, 255⟩
            .FillColor)))).am 5
        = some (setSelectedProp o .FillColor ⟨0, 0, 255, 255⟩)) ∧
    obs (UndoSystem.redo (UndoSystem.undo (UndoSystem.redo (UndoSystem.undo
        (UndoSystem.pushAndExecuteCommand usCap2
          (Command.modifyU8Vec4 5 ⟨255, 0, 0, 255⟩ ⟨0, 0, 255, 255⟩
            .FillColor))))))
      = obs (UndoSystem.redo (UndoSystem.undo
        (UndoSystem.pushAndExecuteCommand usCap2
          (Command.modifyU8Vec4 5 ⟨255, 0, 0, 255⟩ ⟨0, 0, 255, 255⟩
            .FillColor)))) :=
  C4_modify_apply_undo_redo usCap2 5 ⟨255, 0, 0, 255⟩ ⟨0, 0, 255, 255⟩ .FillColor
    ⟨by decide, by decide, by decide, by decide, by decide, 0, by decide, by decide⟩

/-- C5: when a command's target object — or, for the cascading command, a
descendant — is absent from the store, execute and undo perform no property
write and no notification (the store is returned unchanged, and the
cascading command's snapshot is untouched), nothing is raised (the
operations are total), and the cursor/count bookkeeping of record, undo and
redo is a function of the cursors alone, identical whether or not any
mutation took effect. -/
theorem C5_missing_target_pass_through (am : AnimationManagerData)
    (objId : AnimObjId) (oldVec newVec : U8Vec4) (pt : U8Vec4PropType)
    (oldProps : List (AnimObjId × U8Vec4))
    (habs : getMutableObject am objId = none) :
    (Command.modifyU8Vec4 objId oldVec newVec pt).execute am
      = (Command.modifyU8Vec4 objId oldVec newVec pt, am) ∧
    (Command.modifyU8Vec4 objId oldVec newVec pt).undo am = am ∧
    (Command.applyU8Vec4ToChildren objId pt oldProps).execute am
      = (Command.applyU8Vec4ToChildren objId pt oldProps, am) ∧
    (Command.applyU8Vec4ToChildren objId pt oldProps).undo am = am ∧
    (∀ (pt2 : U8Vec4PropType) (tgt : AnimObjId)
        (acc : AnimationManagerData × List (AnimObjId × U8Vec4)),
      getMutableObject acc.1 objId = none → applyChildStep pt2 tgt acc objId = acc) ∧
    (∀ (pt2 : U8Vec4PropType) (ops : List (AnimObjId × U8Vec4))
        (am2 : AnimationManagerData),
      getMutableObject am2 objId = none → undoChildStep pt2 ops am2 objId = am2) ∧
    (∀ us₁ us₂ : UndoSystemData, ∀ c₁ c₂ : Command, cursors us₁ = cursors us₂ →
      cursors (UndoSystem.pushAndExecuteCommand us₁ c₁)
          = cursors (UndoSystem.pushAndExecuteCommand us₂ c₂) ∧
      cursors (UndoSystem.undo us₁) = cursors (UndoSystem.undo us₂) ∧
      cursors (UndoSystem.redo us₁) = cursors (UndoSystem.redo us₂)) := by
  refine ⟨?_, ?_, ?_, ?_, ?_, ?_, ?_⟩
  · simp only [Command.execute, habs]
  · simp only [Command.undo, habs]
  · simp only [Command.execute, habs]
  · simp only [Command.undo, habs]
  · intro pt2 tgt acc hacc
    simp only [applyChildStep, hacc]
  · intro pt2 ops am2 hacc
    simp only [undoChildStep, hacc]
  · have hu : ∀ us : UndoSystemData, cursors (UndoSystem.undo us)
        = (us.undoCursorHead,
           (if us.undoCursorHead = us.undoCursorTail then us.undoCursorTail
            else if us.undoCursorTail = 0 then us.maxHistorySize - 1
                 else us.undoCursorTail - 1),
           us.numCommands, us.maxHistorySize) := by
      intro us
      by_cases heq : us.undoCursorHead = us.undoCursorTail
      · simp only [UndoSystem.undo, cursors, if_pos heq]
      · simp only [UndoSystem.undo, cursors, if_neg heq]
    have hr : ∀ us : UndoSystemData, cursors (UndoSystem.redo us)
        = (us.undoCursorHead,
           (if (us.undoCursorHead + us.numCommands) % us.maxHistorySize
                = us.undoCursorTail then us.undoCursorTail
            else (us.undoCursorTail + 1) % us.maxHistorySize),
           us.numCommands, us.maxHistorySize) := by
      intro us
      by_cases heq : (us.undoCursorHead + us.numCommands) % us.maxHistorySize
          = us.undoCursorTail
      · simp only [UndoSystem.redo, cursors, if_pos heq]
      · simp only [UndoSystem.redo, cursors, if_neg heq]
    have hp : ∀ (us : UndoSystemData) (c : Command),
        cursors (UndoSystem.pushAndExecuteCommand us c)
        = ((if (us.undoCursorTail + 1) % us.maxHistorySize = us.undoCursorHead
             then (us.undoCursorHead + 1) % us.maxHistorySize
             else us.undoCursorHead),
           (us.undoCursorTail + 1) % us.maxHistorySize,
           (if (us.undoCursorTail + 1) % us.maxHistorySize = us.undoCursorHead
             then us.numCommands
                - (UndoSystem.ringRange us.maxHistorySize us.undoCursorTail
                    ((us.undoCursorHead + us.numCommands)
                      % us.maxHistorySize)).length - 1
             else us.numCommands
                - (UndoSystem.ringRange us.maxHistorySize us.undoCursorTail
                    ((us.undoCursorHead + us.numCommands)
                      % us.maxHistorySize)).length) + 1,
           us.maxHistorySize) := fun us c => rfl
    intro us₁ us₂ c₁ c₂ hc
    simp only [cursors, Prod.mk.injEq] at hc
    obtain ⟨h1, h2, h3, h4⟩ := hc
    refine ⟨?_, ?_, ?_⟩
    · rw [hp us₁ c₁, hp us₂ c₂, h1, h2, h3, h4]
    · rw [hu us₁, hu us₂, h1, h2, h3, h4]
    · rw [hr us₁, hr us₂, h1, h2, h3, h4]

/-- Witness for C5 at a concrete store lacking object 6. -/
theorem C5_missing_target_pass_through_witness :
    (Command.modifyU8Vec4 6 ⟨1, 2, 3, 4⟩ ⟨5, 6, 7, 8⟩ .FillColor).execute amFix
      = (Command.modifyU8Vec4 6 ⟨1, 2, 3, 4⟩ ⟨5, 6, 7, 8⟩ .FillColor, amFix) ∧
    (Command.modifyU8Vec4 6 ⟨1, 2, 3, 4⟩ ⟨5, 6, 7, 8⟩ .FillColor).undo amFix
      = amFix ∧
    (Command.applyU8Vec4ToChildren 6 .FillColor []).execute amFix
      = (Command.applyU8Vec4ToChildren 6 .FillColor [], amFix) ∧
    (Command.applyU8Vec4ToChildren 6 .FillColor []).undo amFix = amFix ∧
    (∀ (pt2 : U8Vec4PropType) (tgt : AnimObjId)
        (acc : AnimationManagerData × List (AnimObjId × U8Vec4)),
      getMutableObject acc.1 6 = none → applyChildStep pt2 tgt acc 6 = acc) ∧
    (∀ (pt2 : U8Vec4PropType) (ops : List (AnimObjId × U8Vec4))
        (am2 : AnimationManagerData),
      getMutableObject am2 6 = none → undoChildStep pt2 ops am2 6 = am2) ∧
    (∀ us₁ us₂ : UndoSystemData, ∀ c₁ c₂ : Command, cursors us₁ = cursors us₂ →
      cursors (UndoSystem.pushAndExecuteCommand us₁ c₁)
          = cursors (UndoSystem.pushAndExecuteCommand us₂ c₂) ∧
      cursors (UndoSystem.undo us₁) = cursors (UndoSystem.undo us₂) ∧
      cursors (UndoSystem.redo us₁) = cursors (UndoSystem.redo us₂)) :=
  C5_missing_target_pass_through amFix 6 ⟨1, 2, 3, 4⟩ ⟨5, 6, 7, 8⟩ .FillColor []
    (by decide)

/-- Witness for C6 on the freshly initialized capacity-2 log and a concrete
command. -/
theorem C6_record_truncates_redo_branch_witness :
    (∀ i ∈ UndoSystem.ringRange usCap2.maxHistorySize usCap2.undoCursorTail
        ((usCap2.undoCursorHead + usCap2.numCommands) % usCap2.maxHistorySize),
      i ≠ usCap2.undoCursorTail →
        (UndoSystem.pushAndExecuteCommand usCap2 cmdA).history.getD i none = none) ∧
    (UndoSystem.pushAndExecuteCommand usCap2 cmdA).history.getD
        usCap2.undoCursorTail none
      = some ((cmdA.execute usCap2.am).1) ∧
    (UndoSystem.pushAndExecuteCommand usCap2 cmdA).numCommands
        + (UndoSystem.ringRange usCap2.maxHistorySize usCap2.undoCursorTail
            ((usCap2.undoCursorHead + usCap2.numCommands) % usCap2.maxHistorySize)).length
        + (if (usCap2.undoCursorTail + 1) % usCap2.maxHistorySize
             = usCap2.undoCursorHead then 1 else 0)
      = usCap2.numCommands + 1 ∧
    UndoSystem.redo (UndoSystem.pushAndExecuteCommand usCap2 cmdA)
      = UndoSystem.pushAndExecuteCommand usCap2 cmdA :=
  C6_record_truncates_redo_branch usCap2 cmdA
    ⟨by decide, by decide, by decide, by decide, by decide, 0, by decide, by decide⟩

end MathAnim
